import Mathlib

/-!
# Normalize stage builder and API requests of the engine

A shallow embedding of `engine/source/builder/builders/stageBuilderNormalize.cpp`
and of the collaborators it calls (JSON values, the builder registry, the
expression tree), and of `engine/source/api/src/wazuhRequest.cpp`, followed by
theorems about the builder and about the requests.

The evaluator of the expression tree, the map stage and the active-response
write operator are not among the sources (the tests of the operator are); they
are modelled from the specification, and the theorems about them run the
stages that the normalize builder of the sources compiles.

Exceptions are modelled by `Except String`: the string is the `what()` text of
the `std::exception` that the C++ code throws.
-/

namespace Engine

/-! ## JSON values (`json::Json`) -/

/-- Modelled from the spec: the type `json::Json` is declared in
`json/json.hpp`, which is not among the sources. A JSON document; an object
keeps its members in declared order, as the sequence of `(key, value)` tuples
the builder iterates over, and a number is an integer or not. -/
inductive Json where
  | null
  | bool (b : Bool)
  | int (n : Int)
  | double (x : Rat)
  | str (s : String)
  | arr (items : List Json)
  | obj (members : List (String × Json))

namespace Json

/-- Modelled from the spec: the method `json::Json::isArray()`. -/
def isArray : Json → Bool
  | arr _ => true
  | _ => false

/-- Modelled from the spec: the method `json::Json::isObject()`. -/
def isObject : Json → Bool
  | obj _ => true
  | _ => false

/-- Modelled from the spec: the method `json::Json::getArray()`; the items of
an array, nothing otherwise. -/
def getArray : Json → Option (List Json)
  | arr items => some items
  | _ => none

/-- Modelled from the spec: the method `json::Json::getObject()`; the members
of an object in declared order, nothing otherwise. -/
def getObject : Json → Option (List (String × Json))
  | obj members => some members
  | _ => none

/-- Modelled from the spec: `json::Json::typeName` is declared in
`json/json.hpp`, which is not among the sources; it names the JSON type of the
value with the names the specification uses (array, object, string, number,
boolean, null). -/
def typeName : Json → String
  | null => "null"
  | bool _ => "boolean"
  | int _ => "number"
  | double _ => "number"
  | str _ => "string"
  | arr _ => "array"
  | obj _ => "object"

end Json

/-! ## Events and the active-response channel -/

/-- Modelled from the spec: the state one evaluation acts on. It holds the event
being processed, the messages the active-response channel has received so far
(oldest first), and the transport's verdict on each message (`true`: the
datagram is delivered). -/
structure World where
  event : Json
  delivered : List String
  accepts : String → Bool

/-! ## Expression tree (`base::Expression`) -/

/-- Modelled from the spec: `base::Expression` is declared in `expression.hpp`,
which is not among the sources. The nodes are a leaf wrapping a per-event
evaluator and the four combinators of section 3, each with a diagnostic name
and its children in order. -/
inductive Expression where
  | term (name : String) (fn : World → Bool × World)
  | and (name : String) (children : List Expression)
  | or (name : String) (children : List Expression)
  | chain (name : String) (children : List Expression)
  | broadcast (name : String) (children : List Expression)

/-- Modelled from the spec: the constructor `base::And::create(name, operands)`. -/
def And.create (name : String) (operands : List Expression) : Expression :=
  Expression.and name operands

/-- Modelled from the spec: the constructor `base::Chain::create(name, operands)`. -/
def Chain.create (name : String) (operands : List Expression) : Expression :=
  Expression.chain name operands

/-! ## Builders and the registry -/

/-- A `std::any` as a builder receives it: either it holds a `json::Json`, or
it holds a value of another type, for which `std::any_cast<json::Json>` throws
an exception with the given `what()` text. -/
inductive StdAny where
  | json (j : Json)
  | other (what : String)

/-- The cast `std::any_cast<json::Json>(definition)`. -/
def anyCastJson : StdAny → Except String Json
  | StdAny.json j => Except.ok j
  | StdAny.other what => Except.error what

/-- A `Builder`: from a definition to an expression, or an exception. -/
abbrev Builder := StdAny → Except String Expression

/-- Modelled from the spec: `Registry` is declared in `registry.hpp`, which is
not among the sources. It holds qualified names with their builders, the latest
registration first. -/
structure Registry where
  entries : List (String × Builder)

/-- Modelled from the spec: `registry.hpp` is not among the sources; the text
of the exception `Registry::getBuilder` throws for a name that is not
registered, which the specification calls `UnknownOperator(name)`. -/
def unknownOperator (name : String) : String :=
  "UnknownOperator(" ++ name ++ ")"

/-- Modelled from the spec: the method `Registry::registerBuilder(name, builder)`;
a later registration under the same name replaces the earlier one. -/
def Registry.registerBuilder (r : Registry) (name : String) (b : Builder) : Registry :=
  ⟨(name, b) :: r.entries⟩

/-- Modelled from the spec: the lookup of a name among the registered entries;
the latest registration wins. -/
def lookupBuilder (name : String) : List (String × Builder) → Option Builder
  | [] => none
  | (n, b) :: rest => if n = name then some b else lookupBuilder name rest

/-- Modelled from the spec: the method `Registry::getBuilder(name)`; the builder
registered under the name, or an exception when there is none. -/
def Registry.getBuilder (r : Registry) (name : String) : Except String Builder :=
  match lookupBuilder name r.entries with
  | some b => Except.ok b
  | none => Except.error (unknownOperator name)

/-! ## `getStageNormalizeBuilder` -/

/-- The call `std::transform(first, last, std::back_inserter(out), op)` with an `op`
that may throw: `op` is applied to the elements from first to last, the results
are appended in that order, and the first exception ends the loop. -/
def transform {α β : Type} (op : α → Except String β) : List α → Except String (List β)
  | [] => Except.ok []
  | x :: xs =>
    match op x with
    | Except.error e => Except.error e
    | Except.ok y =>
      match transform op xs with
      | Except.error e => Except.error e
      | Except.ok ys => Except.ok (y :: ys)

/-- The body of the `try` block of the inner lambda (line 64):
`registry->getBuilder("stage." + key)(value)`. -/
def invokeFactory (registry : Registry) (tuple : String × Json) : Except String Expression :=
  match registry.getBuilder ("stage." ++ tuple.1) with
  | Except.error what => Except.error what
  | Except.ok builder => builder (StdAny.json tuple.2)

/-- The text built by `fmt::format("Stage block \"{}\" building failed: {}", key, e.what())`. -/
def stageBlockFailed (key what : String) : String :=
  "Stage block \"" ++ key ++ "\" building failed: " ++ what

/-- The inner lambda of `getStageNormalizeBuilder` (lines 59-71): build the
expression of one `(key, value)` member of a block through the registry; any
exception is caught and thrown again with the key in front. -/
def buildKey (registry : Registry) (tuple : String × Json) : Except String Expression :=
  match invokeFactory registry tuple with
  | Except.error what => Except.error (stageBlockFailed tuple.1 what)
  | Except.ok expression => Except.ok expression

/-- The text of the exception for a definition that is not an array (line 33). -/
def invalidDefinitionType (actual : String) : String :=
  "Invalid json definition type: expected \"array\" but got \"" ++ actual ++ "\""

/-- The text of the exception for an array item that is not an object (line 48). -/
def invalidItemType (actual : String) : String :=
  "Invalid array item type, expected \"object\" but got \"" ++ actual ++ "\""

/-- The outer lambda of `getStageNormalizeBuilder` (lines 44-74): build the
expression of one block. The test `isObject()` of line 46 is the `none` case of
`getObject`, which has a value exactly for an object. -/
def buildBlock (registry : Registry) (block : Json) : Except String Expression :=
  match block.getObject with
  | none =>
    Except.error (invalidItemType block.typeName)
  | some blockObj =>
    match transform (buildKey registry) blockObj with
    | Except.error e => Except.error e
    | Except.ok subBlocksExpressions =>
      Except.ok (And.create "subblock" subBlocksExpressions)

/-- The builder returned by `getStageNormalizeBuilder(registry)` (lines 17-77).
The test `isArray()` of line 31 is the `none` case of `getArray`, which has a
value exactly for an array. -/
def getStageNormalizeBuilder (registry : Registry) : Builder := fun definition =>
  match anyCastJson definition with
  | Except.error what =>
    Except.error ("Definition could not be converted to json: " ++ what)
  | Except.ok jsonDefinition =>
    match jsonDefinition.getArray with
    | none =>
      Except.error (invalidDefinitionType jsonDefinition.typeName)
    | some blocks =>
      match transform (buildBlock registry) blocks with
      | Except.error e => Except.error e
      | Except.ok blockExpressions =>
        Except.ok (Chain.create "stage.normalize" blockExpressions)

/-! ## Evaluation of an expression on one event

The evaluator of the expression tree lives in headers that are not among the
sources; it is modelled from section 4.2 and 4.6 of the specification. -/

mutual

/-- Modelled from the spec: the evaluator of `base::Expression` is not among
the sources. `Term` calls the wrapped per-event function; `And` runs all its
children in order on the same event and succeeds when all of them do; `Or`
runs its children in order up to the first success; `Chain` applies every child
in order unconditionally and its own success gates nothing; `Broadcast` applies
every child to the same event. -/
def eval : Expression → World → Bool × World
  | Expression.term _ fn, w => fn w
  | Expression.and _ children, w => evalAnd children w
  | Expression.or _ children, w => evalOr children w
  | Expression.chain _ children, w => (true, evalChain children w)
  | Expression.broadcast _ children, w => (true, evalChain children w)

/-- Modelled from the spec: the children of an `And`; all of them run, the
result is the conjunction. -/
def evalAnd : List Expression → World → Bool × World
  | [], w => (true, w)
  | c :: cs, w =>
    let first := eval c w
    let others := evalAnd cs first.2
    (first.1 && others.1, others.2)

/-- Modelled from the spec: the children of an `Or`; evaluation stops at the
first child that succeeds. -/
def evalOr : List Expression → World → Bool × World
  | [], w => (false, w)
  | c :: cs, w =>
    let first := eval c w
    if first.1 then (true, first.2) else evalOr cs first.2

/-- Modelled from the spec: the children of a `Chain`; each is applied to the
event as the previous child left it, whatever the previous child reported. -/
def evalChain : List Expression → World → World
  | [], w => w
  | c :: cs, w => evalChain cs (eval c w).2

end

/-- Modelled from the spec: the outputs of a `Broadcast` at the root of a
pipeline, one per child, each the event as that child left it. -/
def fanOut : List Expression → World → List Json × World
  | [], w => ([], w)
  | c :: cs, w =>
    let first := (eval c w).2
    let others := fanOut cs first
    (first.event :: others.1, others.2)

/-- Modelled from the spec: the compiled root expression as the per-event
operator of the stream (section 4.6): one event in, one event out for
`Term`, `And`, `Or` and `Chain`, one per child for `Broadcast`. -/
def emit (root : Expression) (w : World) : List Json × World :=
  match root with
  | Expression.broadcast _ children => fanOut children w
  | _ => ([(eval root w).2.event], (eval root w).2)

/-- Modelled from the spec: the stream operator on a sequence of input events,
processed in arrival order; the result is the sequence of output events and
the messages the channel holds afterwards. -/
def stream (root : Expression) (accepts : String → Bool) :
    List Json → List String → List Json × List String
  | [], delivered => ([], delivered)
  | event :: rest, delivered =>
    let first := emit root ⟨event, delivered, accepts⟩
    let others := stream root accepts rest first.2.delivered
    (first.1 ++ others.1, others.2)

/-! ## Field paths on events -/

/-- Modelled from the spec: the segments of a dot-segmented name; the list of
characters cut at every separator. -/
def splitOnChar (sep : Char) : List Char → List (List Char)
  | [] => [[]]
  | c :: cs =>
    if c = sep then [] :: splitOnChar sep cs
    else
      match splitOnChar sep cs with
      | [] => [[c]]
      | segment :: segments => (c :: segment) :: segments

/-- Modelled from the spec: the path of a dot-segmented field name, as the
tests address the field written for the key `ar_write.result` by
`/ar_write/result`. -/
def fieldPath (name : List Char) : List String :=
  (splitOnChar '.' name).map String.mk

/-- Modelled from the spec: the field query on one object; the value of the
first member with the key. -/
def lookupMember (key : String) : List (String × Json) → Option Json
  | [] => none
  | (k, v) :: rest => if k = key then some v else lookupMember key rest

/-- Modelled from the spec: the field patch on one object; the value of the
first member with the key is replaced, or the member is appended. -/
def upsertMember (key : String) (value : Json) : List (String × Json) → List (String × Json)
  | [] => [(key, value)]
  | (k, v) :: rest =>
    if k = key then (key, value) :: rest else (k, v) :: upsertMember key value rest

/-- Modelled from the spec: the field-path query on an event, a primitive the
specification assumes; the value at the path through nested objects. -/
def Json.getPath : List String → Json → Option Json
  | [], j => some j
  | key :: path, j =>
    match j.getObject with
    | none => none
    | some members =>
      match lookupMember key members with
      | none => none
      | some child => Json.getPath path child

/-- Modelled from the spec: the field-path patch on an event, a primitive the
specification assumes; objects are created along the path where there is
none. -/
def Json.setPath : Json → List String → Json → Json
  | _, [], value => value
  | j, key :: path, value =>
    let members := j.getObject.getD []
    Json.obj
      (upsertMember key (Json.setPath ((lookupMember key members).getD Json.null) path value)
        members)

/-! ## Helper operators and the map stage -/

/-- Modelled from the spec: the operator name and the argument of
`<operator-name>/<argument>`; the list of characters cut at its first slash. -/
def splitAtSlash : List Char → List Char × List Char
  | [] => ([], [])
  | c :: cs =>
    if c = '/' then ([], cs) else ((c :: (splitAtSlash cs).1), (splitAtSlash cs).2)

/-- Modelled from the spec: the operator argument syntax
`+<operator-name>/<argument>` (section 6); the name and the argument of a
helper invocation, nothing for a value that is not one. -/
def parseHelper : List Char → Option (List Char × List Char)
  | '+' :: rest => some (splitAtSlash rest)
  | _ => none

/-- Modelled from the spec: an argument that starts with the reference marker
`$` is a reference, any other argument a literal (section 4.4). -/
def isReference : List Char → Bool
  | '$' :: _ => true
  | _ => false

/-- Modelled from the spec: resolving the payload of a leaf operator on an
event (section 4.4). A reference `$<fieldName>` fails when the name is empty,
the field is absent or the field is not a string; otherwise the resolved
string is used verbatim, and so is a literal. -/
def resolvePayload (argument : List Char) (event : Json) : Option String :=
  match argument with
  | '$' :: name =>
    match name with
    | [] => none
    | _ :: _ =>
      match event.getPath (fieldPath name) with
      | some (Json.str s) => some s
      | _ => none
  | _ => some (String.mk argument)

/-- Modelled from the spec: the evaluator of the active-response write
operator (section 4.5). On a resolution failure it writes `false` to the
result field and sends nothing; otherwise it sends the payload verbatim and
writes whether the transport took it. -/
def arWrite (target : List String) (argument : List Char) (w : World) : Bool × World :=
  match resolvePayload argument w.event with
  | none => (false, { w with event := w.event.setPath target (Json.bool false) })
  | some payload =>
    if w.accepts payload then
      (true, { w with event := w.event.setPath target (Json.bool true),
                      delivered := w.delivered ++ [payload] })
    else
      (false, { w with event := w.event.setPath target (Json.bool false) })

/-- Modelled from the spec: `opBuilderARWrite` is not among the sources. It
receives the object holding the destination field and the helper invocation,
as in the test `BuilderNoParameterError`, and refuses an empty argument at
build time (section 4.5). -/
def opBuilderARWrite : Builder := fun definition =>
  match anyCastJson definition with
  | Except.error what => Except.error what
  | Except.ok j =>
    match j.getObject with
    | some ((target, Json.str value) :: _) =>
      match parseHelper value.data with
      | none => Except.error "ar_write: the value is not a helper invocation"
      | some (_, []) => Except.error "ar_write: the operator requires a non-empty argument"
      | some (_, c :: cs) =>
        Except.ok (Expression.term "helper.ar_write" (arWrite (fieldPath target.data) (c :: cs)))
    | _ => Except.error "ar_write: the definition is not an object with a string value"

/-- Modelled from the spec: `opBuilderMapValue` is not among the sources. It
sets the destination field to the literal value, as the test
`SendFromReference` relies on. -/
def opBuilderMapValue : Builder := fun definition =>
  match anyCastJson definition with
  | Except.error what => Except.error what
  | Except.ok j =>
    match j.getObject with
    | some ((target, value) :: _) =>
      Except.ok (Expression.term "map.value"
        (fun w => (true, { w with event := w.event.setPath (fieldPath target.data) value })))
    | _ => Except.error "map.value: the definition is not an object with a member"

/-- Modelled from the spec: one entry of a map stage. A string value of the
form `+<operator-name>/<argument>` invokes the builder registered under
`helper.<operator-name>`, any other value the builder registered under
`map.value`; the builder receives the object holding the entry alone. -/
def buildMapEntry (registry : Registry) (tuple : String × Json) : Except String Expression :=
  let name :=
    match tuple.2 with
    | Json.str value =>
      match parseHelper value.data with
      | some (operator, _) => "helper." ++ String.mk operator
      | none => "map.value"
    | _ => "map.value"
  match registry.getBuilder name with
  | Except.error what => Except.error what
  | Except.ok builder => builder (StdAny.json (Json.obj [tuple]))

/-- Modelled from the spec: the builder of the map stage is not among the
sources. The entries of the map are built in declared order and applied to the
event one after the other. -/
def getStageMapBuilder (registry : Registry) : Builder := fun definition =>
  match anyCastJson definition with
  | Except.error what => Except.error what
  | Except.ok j =>
    match j.getObject with
    | none => Except.error (invalidDefinitionType j.typeName)
    | some members =>
      match transform (buildMapEntry registry) members with
      | Except.error e => Except.error e
      | Except.ok expressions => Except.ok (Chain.create "stage.map" expressions)

/-- The helper builders of the test fixture that are modelled here. -/
def helperRegistry : Registry :=
  (Registry.mk []).registerBuilder "helper.ar_write" opBuilderARWrite
    |>.registerBuilder "map.value" opBuilderMapValue

/-- A registry for the normalize stage: the helper builders and the map stage
over them. -/
def stageRegistry : Registry :=
  helperRegistry.registerBuilder "stage.map" (getStageMapBuilder helperRegistry)

/-- The definition `[{"map": {"ar_write.result": "+ar_write/<argument>"}}]`. -/
def arWriteDefinition (argument : String) : Json :=
  Json.arr [Json.obj [("map", Json.obj [("ar_write.result", Json.str ("+ar_write/" ++ argument))])]]

/-- The definition
`[{"map": {"variable": <s>, "ar_write.result": "+ar_write/$variable"}}]`. -/
def setThenWriteDefinition (s : String) : Json :=
  Json.arr [Json.obj [("map", Json.obj
    [("variable", Json.str s), ("ar_write.result", Json.str "+ar_write/$variable")])]]

/-- The path of the field `/ar_write/result`. -/
def resultPath : List String := ["ar_write", "result"]

/-- A sample builder for a check stage whose condition holds on no event: the
expression reports failure and leaves the event as it is. -/
def neverHolds : Builder := fun _ =>
  Except.ok (Expression.term "check" (fun w => (false, w)))

/-- The stage registry with the sample check stage. -/
def sampleRegistry : Registry :=
  stageRegistry.registerBuilder "stage.check" neverHolds

/-- The registrations of `opBuilderARWriteTestSuite::SetUpTestSuite` (test
lines 36-49) on an empty registry, in the order of the fixture. The six
builders of the fixture that are not modelled here are parameters. -/
def fixtureRegistry (stageBuilderCheck opBuilderCondition middleBuilderCondition
    opBuilderHelperExists combinatorBuilderChain combinatorBuilderBroadcast : Builder) :
    Registry :=
  (Registry.mk []).registerBuilder "helper.ar_write" opBuilderARWrite
    |>.registerBuilder "map.value" opBuilderMapValue
    |>.registerBuilder "check" stageBuilderCheck
    |>.registerBuilder "condition" opBuilderCondition
    |>.registerBuilder "middle.condition" middleBuilderCondition
    |>.registerBuilder "middle.helper.exists" opBuilderHelperExists
    |>.registerBuilder "combinator.chain" combinatorBuilderChain
    |>.registerBuilder "combinator.broadcast" combinatorBuilderBroadcast

/-! ## API requests (`api::WazuhRequest`)

The paths of the source are JSON pointers; `/origin/name` is written here as
the list of its keys, `["origin", "name"]`. -/

/-- Modelled from the spec: the method `json::Json::exists(path)` of
`json/json.hpp`, which is not among the sources; there is a value at the
path. -/
def Json.existsAt (j : Json) (path : List String) : Bool :=
  (j.getPath path).isSome

/-- Modelled from the spec: the method `json::Json::isInt(path)`; the value at
the path is a number that fits a 32-bit signed integer. -/
def Json.isIntAt (j : Json) (path : List String) : Bool :=
  match j.getPath path with
  | some (Json.int n) => decide (-2147483648 ≤ n ∧ n ≤ 2147483647)
  | _ => false

/-- Modelled from the spec: the method `json::Json::getInt(path)`; the 32-bit
signed integer at the path, nothing otherwise. -/
def Json.getIntAt (j : Json) (path : List String) : Option Int :=
  match j.getPath path with
  | some (Json.int n) => if -2147483648 ≤ n ∧ n ≤ 2147483647 then some n else none
  | _ => none

/-- Modelled from the spec: the method `json::Json::isString(path)`; the value
at the path is a string. -/
def Json.isStringAt (j : Json) (path : List String) : Bool :=
  match j.getPath path with
  | some (Json.str _) => true
  | _ => false

/-- Modelled from the spec: the method `json::Json::isObject(path)`; the value
at the path is an object. -/
def Json.isObjectAt (j : Json) (path : List String) : Bool :=
  match j.getPath path with
  | some (Json.obj _) => true
  | _ => false

/-- Modelled from the spec: the class `api::WazuhRequest` is declared in
`api/wazuhRequest.hpp`, which is not among the sources; a request holds its
JSON document `m_jrequest`. -/
structure WazuhRequest where
  m_jrequest : Json

/-- The text built by `fmt::format` on lines 23-26. -/
def versionNotSupported (version supported : Int) : String :=
  "The request version (" ++ toString version ++
    ") is not supported, the supported version is " ++ toString supported

/-- The method `WazuhRequest::validate()` (lines 10-50), with the constant
`VERSION_SUPPORTED` of the missing header as a parameter: the error message,
or nothing for a valid request. On line 21 `getInt("/version")` has a value,
since `isInt("/version")` held on line 16. -/
def WazuhRequest.validate (VERSION_SUPPORTED : Int) (r : WazuhRequest) : Option String :=
  if !r.m_jrequest.isObject then
    some "The request must be formatted as a JSON object"
  else if !r.m_jrequest.existsAt ["version"] || !r.m_jrequest.isIntAt ["version"] then
    some "The request must have a \"version\" field containing an integer value"
  else
    match r.m_jrequest.getIntAt ["version"] with
    | none => some "The request must have a \"version\" field containing an integer value"
    | some version =>
      if version ≠ VERSION_SUPPORTED then
        some (versionNotSupported version VERSION_SUPPORTED)
      else if !r.m_jrequest.isStringAt ["command"] then
        some "The request must have a command field containing a string value"
      else if !r.m_jrequest.isObjectAt ["parameters"] then
        some "The request must have a parameters field with a JSON object value"
      else if !r.m_jrequest.isObjectAt ["origin"] then
        some "The request must have an origin field with a JSON object value"
      else if !r.m_jrequest.isStringAt ["origin", "name"] then
        some "The request must have an origin/name field with a string value"
      else if !r.m_jrequest.isStringAt ["origin", "module"] then
        some "The request must have an origin/module field with a string value"
      else
        none

/-- The function `WazuhRequest::create(command, originName, parameters)` (lines
52-91), with `VERSION_SUPPORTED` as a parameter; the debug log lines have no
effect on the result. The default-constructed `json::Json` is the null
document, and each setter creates the objects along its path. -/
def WazuhRequest.create (VERSION_SUPPORTED : Int) (command originName : String)
    (parameters : Json) : Except String WazuhRequest :=
  if command = "" then
    Except.error "The command cannot be empty"
  else if !parameters.isObject then
    Except.error "The command parameters must be inside of a JSON object"
  else
    let jrequest := Json.null
    let jrequest := jrequest.setPath ["version"] (Json.int VERSION_SUPPORTED)
    let jrequest := jrequest.setPath ["command"] (Json.str command)
    let jrequest := jrequest.setPath ["parameters"] parameters
    let jrequest := jrequest.setPath ["origin", "module"] (Json.str "wazuh-engine")
    let jrequest := jrequest.setPath ["origin", "name"] (Json.str originName)
    Except.ok (WazuhRequest.mk jrequest)

/-! ## Predicates used in the statements -/

/-- The members of a block resolve to the expressions `es`: member by member,
in order, the builder registered under `"stage." + key` returns that
expression on the member's value. -/
def BlockResolves (registry : Registry) (members : List (String × Json))
    (es : List Expression) : Prop :=
  List.Forall₂
    (fun tuple e => ∃ builder,
      lookupBuilder ("stage." ++ tuple.1) registry.entries = some builder ∧
        builder (StdAny.json tuple.2) = Except.ok e)
    members es

/-- The request is a JSON object whose `/version` is the integer `version`,
whose `/command` is a string, whose `/parameters` and `/origin` are objects,
and whose `/origin/name` and `/origin/module` are strings. -/
def WellFormedRequest (version : Int) (j : Json) : Prop :=
  j.isObject = true ∧
    j.getPath ["version"] = some (Json.int version) ∧
    (∃ command, j.getPath ["command"] = some (Json.str command)) ∧
    (∃ members, j.getPath ["parameters"] = some (Json.obj members)) ∧
    (∃ members, j.getPath ["origin"] = some (Json.obj members)) ∧
    (∃ name, j.getPath ["origin", "name"] = some (Json.str name)) ∧
    ∃ module, j.getPath ["origin", "module"] = some (Json.str module)

/-- The reference `$<name>` fails on the event: the name is empty, the field is
absent, or the field is not a string. -/
def ReferenceFails (name : List Char) (event : Json) : Prop :=
  name = [] ∨ event.getPath (fieldPath name) = none ∨
    ∃ v, event.getPath (fieldPath name) = some v ∧ ∀ s, v ≠ Json.str s

/-! ## Theorems -/

section Transform

variable {α β : Type} (op : α → Except String β)

theorem transform_ok_iff (xs : List α) (ys : List β) :
    transform op xs = Except.ok ys ↔ List.Forall₂ (fun x y => op x = Except.ok y) xs ys := by
  induction xs generalizing ys with
  | nil =>
    cases ys <;> simp [transform]
  | cons x xs ih =>
    cases hx : op x with
    | error e =>
      simp only [transform, hx]
      constructor
      · intro h; cases h
      · intro h
        cases h with
        | cons h1 _ => rw [hx] at h1; cases h1
    | ok y =>
      cases hxs : transform op xs with
      | error e =>
        simp only [transform, hx, hxs]
        constructor
        · intro h; cases h
        · intro h
          cases h with
          | cons h1 h2 =>
            rw [← ih] at h2
            rw [hxs] at h2; cases h2
      | ok zs =>
        simp only [transform, hx, hxs]
        constructor
        · intro h
          cases h
          exact List.Forall₂.cons hx ((ih zs).1 hxs)
        · intro h
          cases h with
          | cons h1 h2 =>
            rw [hx] at h1
            cases h1
            have := (ih _).2 h2
            rw [hxs] at this
            cases this
            rfl

theorem transform_succeeds_iff (xs : List α) :
    (∃ ys, transform op xs = Except.ok ys) ↔ ∀ x ∈ xs, ∃ y, op x = Except.ok y := by
  induction xs with
  | nil => simp [transform]
  | cons x xs ih =>
    cases hx : op x with
    | error e => simp [transform, hx]
    | ok y =>
      cases hxs : transform op xs with
      | error e =>
        have : ¬ ∀ x ∈ xs, ∃ y, op x = Except.ok y := by
          rw [← ih, hxs]; simp
        simp [transform, hx, hxs, this]
      | ok zs =>
        have : ∀ x ∈ xs, ∃ y, op x = Except.ok y := by
          rw [← ih, hxs]; simp
        simpa [transform, hx, hxs] using this

theorem transform_first_error (pre : List α) (x : α) (post : List α) (ys : List β) (e : String)
    (hpre : transform op pre = Except.ok ys) (hx : op x = Except.error e) :
    transform op (pre ++ x :: post) = Except.error e := by
  induction pre generalizing ys with
  | nil => simp [transform, hx]
  | cons p pre ih =>
    cases hp : op p with
    | error e1 => simp [transform, hp] at hpre
    | ok y =>
      cases hps : transform op pre with
      | error e1 => simp [transform, hp, hps] at hpre
      | ok zs =>
        simp [transform, hp, ih zs hps]

end Transform

section Normalize

theorem getBuilder_ok_iff (registry : Registry) (name : String) (builder : Builder) :
    registry.getBuilder name = Except.ok builder ↔
      lookupBuilder name registry.entries = some builder := by
  unfold Registry.getBuilder
  cases lookupBuilder name registry.entries with
  | none => simp
  | some b =>
    constructor
    · intro h; cases h; rfl
    · intro h; cases h; rfl

theorem invokeFactory_ok_iff (registry : Registry) (tuple : String × Json) (e : Expression) :
    invokeFactory registry tuple = Except.ok e ↔
      ∃ builder, lookupBuilder ("stage." ++ tuple.1) registry.entries = some builder ∧
        builder (StdAny.json tuple.2) = Except.ok e := by
  unfold invokeFactory Registry.getBuilder
  cases lookupBuilder ("stage." ++ tuple.1) registry.entries with
  | none =>
    constructor
    · intro h; cases h
    · rintro ⟨b, hb, _⟩; cases hb
  | some b =>
    constructor
    · intro h; exact ⟨b, rfl, h⟩
    · rintro ⟨b1, hb, h⟩; cases hb; exact h

theorem buildKey_ok_iff (registry : Registry) (tuple : String × Json) (e : Expression) :
    buildKey registry tuple = Except.ok e ↔ invokeFactory registry tuple = Except.ok e := by
  unfold buildKey
  cases invokeFactory registry tuple with
  | error what =>
    constructor <;> (intro h; cases h)
  | ok x =>
    constructor <;> (intro h; cases h; rfl)

theorem buildKey_error (registry : Registry) (tuple : String × Json) (what : String)
    (h : invokeFactory registry tuple = Except.error what) :
    buildKey registry tuple = Except.error (stageBlockFailed tuple.1 what) := by
  unfold buildKey
  rw [h]

theorem buildBlock_obj_ok_iff (registry : Registry) (members : List (String × Json))
    (e : Expression) :
    buildBlock registry (Json.obj members) = Except.ok e ↔
      ∃ es, transform (buildKey registry) members = Except.ok es ∧
        e = Expression.and "subblock" es := by
  simp only [buildBlock, Json.getObject, And.create]
  cases transform (buildKey registry) members with
  | error what =>
    constructor
    · intro h; cases h
    · rintro ⟨es, h, _⟩; cases h
  | ok es =>
    constructor
    · intro h; cases h; exact ⟨es, rfl, rfl⟩
    · rintro ⟨es1, h, rfl⟩; cases h; rfl

theorem buildBlock_not_object (registry : Registry) (block : Json)
    (h : block.isObject = false) :
    buildBlock registry block = Except.error (invalidItemType block.typeName) := by
  cases block <;> simp_all [buildBlock, Json.getObject, Json.isObject]

theorem normalize_arr (registry : Registry) (items : List Json) :
    getStageNormalizeBuilder registry (StdAny.json (Json.arr items)) =
      match transform (buildBlock registry) items with
      | Except.error e => Except.error e
      | Except.ok blockExpressions =>
        Except.ok (Expression.chain "stage.normalize" blockExpressions) := by
  simp only [getStageNormalizeBuilder, anyCastJson, Json.getArray, Chain.create]

theorem transform_buildKey_ok_iff (registry : Registry) (members : List (String × Json))
    (es : List Expression) :
    transform (buildKey registry) members = Except.ok es ↔ BlockResolves registry members es := by
  rw [transform_ok_iff]
  unfold BlockResolves
  constructor
  · intro h
    exact h.imp (fun {t e} ht => (invokeFactory_ok_iff registry t e).1
      ((buildKey_ok_iff registry t e).1 ht))
  · intro h
    exact h.imp (fun {t e} ht => (buildKey_ok_iff registry t e).2
      ((invokeFactory_ok_iff registry t e).2 ht))

theorem transform_buildBlock_ok_iff (registry : Registry)
    (blocks : List (List (String × Json))) (bs : List Expression) :
    transform (buildBlock registry) (blocks.map Json.obj) = Except.ok bs ↔
      ∃ built : List (List Expression),
        List.Forall₂ (BlockResolves registry) blocks built ∧
          bs = built.map (Expression.and "subblock") := by
  induction blocks generalizing bs with
  | nil =>
    constructor
    · intro h
      simp only [List.map_nil, transform] at h
      cases h
      exact ⟨[], List.Forall₂.nil, rfl⟩
    · rintro ⟨built, h, rfl⟩
      cases h
      rfl
  | cons block blocks ih =>
    rw [List.map_cons, transform_ok_iff]
    constructor
    · intro h
      cases h with
      | cons h1 h2 =>
        rw [← transform_ok_iff, ih] at h2
        obtain ⟨built, hb, rfl⟩ := h2
        obtain ⟨es, hes, rfl⟩ := (buildBlock_obj_ok_iff registry block _).1 h1
        refine ⟨es :: built, List.Forall₂.cons ?_ hb, rfl⟩
        exact (transform_buildKey_ok_iff registry block es).1 hes
    · rintro ⟨built, h, rfl⟩
      cases h with
      | cons h1 h2 =>
        rw [List.map_cons]
        refine List.Forall₂.cons ?_ ?_
        · exact (buildBlock_obj_ok_iff registry block _).2
            ⟨_, (transform_buildKey_ok_iff registry block _).2 h1, rfl⟩
        · rw [← transform_ok_iff, ih]
          exact ⟨_, h2, rfl⟩

theorem forall₂_exists_of_forall {α β : Type} (R : α → β → Prop) (xs : List α)
    (h : ∀ x ∈ xs, ∃ y, R x y) : ∃ ys, List.Forall₂ R xs ys := by
  induction xs with
  | nil => exact ⟨[], List.Forall₂.nil⟩
  | cons x xs ih =>
    obtain ⟨y, hy⟩ := h x (List.mem_cons_self x xs)
    obtain ⟨ys, hys⟩ := ih (fun z hz => h z (List.mem_cons_of_mem x hz))
    exact ⟨y :: ys, List.Forall₂.cons hy hys⟩

theorem forall_exists_of_forall₂ {α β : Type} (R : α → β → Prop) (xs : List α) (ys : List β)
    (h : List.Forall₂ R xs ys) : ∀ x ∈ xs, ∃ y, R x y := by
  induction h with
  | nil => intro x hx; cases hx
  | cons hxy _ ih =>
    intro z hz
    rcases List.mem_cons.1 hz with rfl | hz
    · exact ⟨_, hxy⟩
    · exact ih z hz

theorem normalize_ok_of_resolves (registry : Registry)
    (blocks : List (List (String × Json))) (built : List (List Expression))
    (h : List.Forall₂ (BlockResolves registry) blocks built) :
    getStageNormalizeBuilder registry (StdAny.json (Json.arr (blocks.map Json.obj))) =
      Except.ok
        (Expression.chain "stage.normalize" (built.map (Expression.and "subblock"))) := by
  rw [normalize_arr, (transform_buildBlock_ok_iff registry blocks _).2 ⟨built, h, rfl⟩]

theorem getArray_eq_none_iff (j : Json) : j.getArray = none ↔ j.isArray = false := by
  cases j <;> simp [Json.getArray, Json.isArray]

theorem getObject_eq_none_iff (j : Json) : j.getObject = none ↔ j.isObject = false := by
  cases j <;> simp [Json.getObject, Json.isObject]

/-- C1: for a definition that is an array of objects in which every key's
factory, registered under `"stage." + key`, succeeds on the key's value, the
normalize builder returns exactly the Chain named "stage.normalize" whose
children are, block by block in array order, the And named "subblock" of the
expressions those factories return, key by key in declared order. -/
theorem normalize_builds_chain_of_subblocks (registry : Registry)
    (blocks : List (List (String × Json)))
    (h : ∀ block ∈ blocks, ∀ tuple ∈ block, ∃ builder e,
      lookupBuilder ("stage." ++ tuple.1) registry.entries = some builder ∧
        builder (StdAny.json tuple.2) = Except.ok e) :
    ∃ built : List (List Expression),
      List.Forall₂ (BlockResolves registry) blocks built ∧
        getStageNormalizeBuilder registry (StdAny.json (Json.arr (blocks.map Json.obj))) =
          Except.ok
            (Expression.chain "stage.normalize" (built.map (Expression.and "subblock"))) := by
  have hblock : ∀ block ∈ blocks, ∃ es, BlockResolves registry block es := by
    intro block hmem
    apply forall₂_exists_of_forall
    intro tuple ht
    obtain ⟨builder, e, h1, h2⟩ := h block hmem tuple ht
    exact ⟨e, builder, h1, h2⟩
  obtain ⟨built, hbuilt⟩ := forall₂_exists_of_forall _ blocks hblock
  exact ⟨built, hbuilt, normalize_ok_of_resolves registry blocks built hbuilt⟩

theorem normalize_builds_chain_of_subblocks_witness :
    ∃ built : List (List Expression),
      List.Forall₂ (BlockResolves sampleRegistry)
          [[("check", Json.arr [])],
           [("map", Json.obj [("ar_write.result", Json.str "+ar_write/test")])]] built ∧
        getStageNormalizeBuilder sampleRegistry
            (StdAny.json (Json.arr
              ([[("check", Json.arr [])],
                [("map", Json.obj [("ar_write.result", Json.str "+ar_write/test")])]].map
                Json.obj))) =
          Except.ok
            (Expression.chain "stage.normalize" (built.map (Expression.and "subblock"))) :=
  normalize_builds_chain_of_subblocks sampleRegistry
    [[("check", Json.arr [])],
     [("map", Json.obj [("ar_write.result", Json.str "+ar_write/test")])]]
    (by
      intro block hblock tuple htuple
      simp only [List.mem_cons, List.mem_singleton, List.not_mem_nil, or_false] at hblock
      rcases hblock with rfl | rfl
      · simp only [List.mem_singleton] at htuple
        subst htuple
        exact ⟨_, _, rfl, rfl⟩
      · simp only [List.mem_singleton] at htuple
        subst htuple
        exact ⟨_, _, rfl, rfl⟩)

/-- C2: for an array-of-objects definition the normalize build succeeds if and
only if every key of every block is registered under `"stage." + key` and its
factory succeeds on the key's value. -/
theorem normalize_succeeds_iff_all_keys_build (registry : Registry)
    (blocks : List (List (String × Json))) :
    (∃ e, getStageNormalizeBuilder registry (StdAny.json (Json.arr (blocks.map Json.obj)))
        = Except.ok e) ↔
      ∀ block ∈ blocks, ∀ tuple ∈ block, ∃ builder,
        lookupBuilder ("stage." ++ tuple.1) registry.entries = some builder ∧
          ∃ e, builder (StdAny.json tuple.2) = Except.ok e := by
  constructor
  · rintro ⟨e, he⟩
    rw [normalize_arr] at he
    cases hbs : transform (buildBlock registry) (blocks.map Json.obj) with
    | error what => rw [hbs] at he; cases he
    | ok bs =>
      obtain ⟨built, hbuilt, _⟩ := (transform_buildBlock_ok_iff registry blocks bs).1 hbs
      intro block hblock tuple ht
      obtain ⟨es, hes⟩ := forall_exists_of_forall₂ _ blocks built hbuilt block hblock
      obtain ⟨e1, builder, h1, h2⟩ := forall_exists_of_forall₂ _ block es hes tuple ht
      exact ⟨builder, h1, e1, h2⟩
  · intro h
    have hblock : ∀ block ∈ blocks, ∃ es, BlockResolves registry block es := by
      intro block hmem
      apply forall₂_exists_of_forall
      intro tuple ht
      obtain ⟨builder, h1, e, h2⟩ := h block hmem tuple ht
      exact ⟨e, builder, h1, h2⟩
    obtain ⟨built, hbuilt⟩ := forall₂_exists_of_forall _ blocks hblock
    exact ⟨_, normalize_ok_of_resolves registry blocks built hbuilt⟩

/-- C3: when the blocks before it and the keys before it in its block build,
a key whose resolution or factory invocation fails with cause message `c` makes
the normalize builder fail with exactly
`Stage block "<key>" building failed: <c>`. -/
theorem normalize_wraps_key_failure (registry : Registry)
    (before : List Json) (beforeExprs : List Expression)
    (pre : List (String × Json)) (preExprs : List Expression)
    (key : String) (value : Json) (post : List (String × Json)) (after : List Json)
    (c : String)
    (hbefore : transform (buildBlock registry) before = Except.ok beforeExprs)
    (hpre : transform (buildKey registry) pre = Except.ok preExprs)
    (hfail : invokeFactory registry (key, value) = Except.error c) :
    getStageNormalizeBuilder registry
        (StdAny.json (Json.arr (before ++ Json.obj (pre ++ (key, value) :: post) :: after))) =
      Except.error ("Stage block \"" ++ key ++ "\" building failed: " ++ c) := by
  have hkey : buildKey registry (key, value) = Except.error (stageBlockFailed key c) :=
    buildKey_error registry (key, value) c hfail
  have hblock : buildBlock registry (Json.obj (pre ++ (key, value) :: post)) =
      Except.error (stageBlockFailed key c) := by
    simp only [buildBlock, Json.getObject]
    rw [transform_first_error (buildKey registry) pre (key, value) post preExprs _ hpre hkey]
  rw [normalize_arr,
    transform_first_error (buildBlock registry) before _ after beforeExprs _ hbefore hblock]
  rfl

theorem normalize_wraps_key_failure_witness :
    getStageNormalizeBuilder stageRegistry
        (StdAny.json (Json.arr
          ([Json.obj [("map", Json.obj [("ar_write.result", Json.str "+ar_write/test")])]] ++
            Json.obj ([] ++ ("check", Json.arr []) :: [("map", Json.obj [])]) ::
              [Json.int 404]))) =
      Except.error
        ("Stage block \"" ++ "check" ++ "\" building failed: " ++
          unknownOperator "stage.check") :=
  normalize_wraps_key_failure stageRegistry
    [Json.obj [("map", Json.obj [("ar_write.result", Json.str "+ar_write/test")])]] _
    [] [] "check" (Json.arr []) [("map", Json.obj [])] [Json.int 404]
    (unknownOperator "stage.check") rfl rfl rfl

/-- C4: for a definition that is not an array the normalize builder fails with
the invalid-definition-type error that expects "array" and names the actual
type (object, string, number, boolean or null), whatever the registry holds. -/
theorem normalize_rejects_non_array (registry : Registry) (definition : Json)
    (h : definition.isArray = false) :
    getStageNormalizeBuilder registry (StdAny.json definition) =
        Except.error
          ("Invalid json definition type: expected \"array\" but got \""
            ++ definition.typeName ++ "\"") ∧
      definition.typeName ∈ ["object", "string", "number", "boolean", "null"] := by
  cases definition <;>
    simp_all [getStageNormalizeBuilder, anyCastJson, Json.getArray, Json.isArray,
      Json.typeName, invalidDefinitionType]

theorem normalize_rejects_non_array_witness :
    getStageNormalizeBuilder stageRegistry
        (StdAny.json (Json.obj [("map", Json.obj [])])) =
        Except.error
          ("Invalid json definition type: expected \"array\" but got \""
            ++ (Json.obj [("map", Json.obj [])]).typeName ++ "\"") ∧
      (Json.obj [("map", Json.obj [])]).typeName ∈
        ["object", "string", "number", "boolean", "null"] :=
  normalize_rejects_non_array stageRegistry (Json.obj [("map", Json.obj [])]) rfl

/-- C5: an array definition with an entry that is not an object never builds;
and when the entries before such an entry build, the error is the
invalid-item-type error that expects "object" and names that entry's type. -/
theorem normalize_rejects_non_object_item (registry : Registry) (items : List Json)
    (h : ∃ item ∈ items, item.isObject = false) :
    (∀ e, getStageNormalizeBuilder registry (StdAny.json (Json.arr items)) ≠ Except.ok e) ∧
      ∀ (before : List Json) (item : Json) (after : List Json) (beforeExprs : List Expression),
        items = before ++ item :: after → item.isObject = false →
        transform (buildBlock registry) before = Except.ok beforeExprs →
        getStageNormalizeBuilder registry (StdAny.json (Json.arr items)) =
          Except.error
            ("Invalid array item type, expected \"object\" but got \""
              ++ item.typeName ++ "\"") := by
  constructor
  · intro e he
    rw [normalize_arr] at he
    cases hbs : transform (buildBlock registry) items with
    | error what => rw [hbs] at he; cases he
    | ok bs =>
      obtain ⟨item, hmem, hitem⟩ := h
      obtain ⟨y, hy⟩ := (transform_succeeds_iff (buildBlock registry) items).1 ⟨bs, hbs⟩ item hmem
      rw [buildBlock_not_object registry item hitem] at hy
      cases hy
  · intro before item after beforeExprs hitems hitem hbefore
    subst hitems
    rw [normalize_arr,
      transform_first_error (buildBlock registry) before item after beforeExprs _ hbefore
        (buildBlock_not_object registry item hitem)]
    rfl

theorem normalize_rejects_non_object_item_witness :
    getStageNormalizeBuilder stageRegistry
        (StdAny.json (Json.arr [Json.obj [("map", Json.obj [])], Json.int 404,
          Json.obj [("check", Json.arr [])]])) =
      Except.error
        ("Invalid array item type, expected \"object\" but got \""
          ++ (Json.int 404).typeName ++ "\"") :=
  (normalize_rejects_non_object_item stageRegistry
    [Json.obj [("map", Json.obj [])], Json.int 404, Json.obj [("check", Json.arr [])]]
    ⟨Json.int 404, by simp, rfl⟩).2
    [Json.obj [("map", Json.obj [])]] (Json.int 404) [Json.obj [("check", Json.arr [])]] _
    rfl rfl rfl

end Normalize

section Evaluation

theorem evalChain_eq_foldl (children : List Expression) (w : World) :
    evalChain children w = children.foldl (fun state child => (eval child state).2) w := by
  induction children generalizing w with
  | nil => simp [evalChain]
  | cons c cs ih => simp [evalChain, ih]

theorem lookupMember_upsertMember (key : String) (value : Json)
    (members : List (String × Json)) :
    lookupMember key (upsertMember key value members) = some value := by
  induction members with
  | nil => simp [upsertMember, lookupMember]
  | cons m ms ih =>
    obtain ⟨k, v⟩ := m
    by_cases hk : k = key
    · simp [upsertMember, lookupMember, hk]
    · simp [upsertMember, lookupMember, hk, ih]

theorem getPath_setPath (j : Json) (path : List String) (value : Json) :
    (j.setPath path value).getPath path = some value := by
  induction path generalizing j with
  | nil => simp [Json.setPath, Json.getPath]
  | cons key path ih =>
    simp only [Json.setPath, Json.getPath, Json.getObject, lookupMember_upsertMember, ih]

/-- The tree the normalize builder compiles from
`[{"map": {"ar_write.result": "+ar_write/<argument>"}}]`. -/
theorem build_arWriteDefinition (registry helpers : Registry) (s : String)
    (hmap : lookupBuilder "stage.map" registry.entries = some (getStageMapBuilder helpers))
    (har : lookupBuilder "helper.ar_write" helpers.entries = some opBuilderARWrite) :
    getStageNormalizeBuilder registry (StdAny.json (arWriteDefinition s)) =
      match s.data with
      | [] =>
        Except.error
          (stageBlockFailed "map" "ar_write: the operator requires a non-empty argument")
      | c :: cs =>
        Except.ok (Expression.chain "stage.normalize" [Expression.and "subblock"
          [Expression.chain "stage.map"
            [Expression.term "helper.ar_write" (arWrite resultPath (c :: cs))]]]) := by
  have h1 : registry.getBuilder ("stage." ++ "map") = Except.ok (getStageMapBuilder helpers) :=
    (getBuilder_ok_iff registry _ _).2 hmap
  have h2 : helpers.getBuilder ("helper." ++ String.mk "ar_write".data) =
      Except.ok opBuilderARWrite :=
    (getBuilder_ok_iff helpers _ _).2 har
  have h3 : parseHelper ("+ar_write/" ++ s).data = some ("ar_write".data, s.data) := rfl
  have h4 : fieldPath "ar_write.result".data = resultPath := rfl
  simp only [normalize_arr, arWriteDefinition, transform, buildBlock, Json.getObject, buildKey,
    invokeFactory, h1, getStageMapBuilder, anyCastJson, buildMapEntry, h3, h2, opBuilderARWrite,
    h4]
  cases s.data <;> rfl

theorem resolvePayload_literal (argument : List Char) (event : Json)
    (hlit : isReference argument = false) :
    resolvePayload argument event = some (String.mk argument) := by
  unfold resolvePayload
  split
  · simp [isReference] at hlit
  · rfl

theorem arWrite_literal (target : List String) (argument : List Char) (w : World)
    (hlit : isReference argument = false) (hacc : w.accepts (String.mk argument) = true) :
    arWrite target argument w =
      (true, { w with event := w.event.setPath target (Json.bool true),
                      delivered := w.delivered ++ [String.mk argument] }) := by
  simp [arWrite, resolvePayload_literal argument w.event hlit, hacc]

/-- The stream of a stage whose root is a Chain: one output per input. -/
theorem stream_chain_cons (name : String) (children : List Expression)
    (accepts : String → Bool) (event : Json) (rest : List Json) (delivered : List String) :
    stream (Expression.chain name children) accepts (event :: rest) delivered =
      ((evalChain children ⟨event, delivered, accepts⟩).event ::
          (stream (Expression.chain name children) accepts rest
            (evalChain children ⟨event, delivered, accepts⟩).delivered).1,
        (stream (Expression.chain name children) accepts rest
            (evalChain children ⟨event, delivered, accepts⟩).delivered).2) := by
  simp [stream, emit, eval]

/-- C6: the stage the normalize builder returns applies every block's
expression to the event in declared order, each to the event as the previous
block left it, whatever the earlier blocks report. -/
theorem chain_applies_every_block (registry : Registry) (items : List Json)
    (stage : Expression)
    (hbuild : getStageNormalizeBuilder registry (StdAny.json (Json.arr items)) =
      Except.ok stage) :
    ∃ blocks : List Expression,
      List.Forall₂ (fun item block => buildBlock registry item = Except.ok block) items blocks ∧
        ∀ w : World,
          eval stage w = (true, blocks.foldl (fun state block => (eval block state).2) w) := by
  rw [normalize_arr] at hbuild
  cases hblocks : transform (buildBlock registry) items with
  | error what => rw [hblocks] at hbuild; cases hbuild
  | ok blocks =>
    rw [hblocks] at hbuild
    cases hbuild
    refine ⟨blocks, (transform_ok_iff _ _ _).1 hblocks, ?_⟩
    intro w
    simp [eval, evalChain_eq_foldl]

theorem chain_applies_every_block_witness :
    getStageNormalizeBuilder sampleRegistry
        (StdAny.json (Json.arr
          [Json.obj [("check", Json.arr [])],
           Json.obj [("map", Json.obj [("ar_write.result", Json.str "+ar_write/test")])]])) =
      Except.ok (Expression.chain "stage.normalize"
        [Expression.and "subblock" [Expression.term "check" (fun w => (false, w))],
         Expression.and "subblock" [Expression.chain "stage.map"
           [Expression.term "helper.ar_write" (arWrite resultPath "test".data)]]]) ∧
    (∃ blocks : List Expression,
      List.Forall₂ (fun item block => buildBlock sampleRegistry item = Except.ok block)
        [Json.obj [("check", Json.arr [])],
         Json.obj [("map", Json.obj [("ar_write.result", Json.str "+ar_write/test")])]] blocks ∧
        ∀ w : World,
          eval (Expression.chain "stage.normalize"
            [Expression.and "subblock" [Expression.term "check" (fun w => (false, w))],
             Expression.and "subblock" [Expression.chain "stage.map"
               [Expression.term "helper.ar_write" (arWrite resultPath "test".data)]]]) w =
            (true, blocks.foldl (fun state block => (eval block state).2) w)) ∧
    (eval (Expression.chain "stage.normalize"
        [Expression.and "subblock" [Expression.term "check" (fun w => (false, w))],
         Expression.and "subblock" [Expression.chain "stage.map"
           [Expression.term "helper.ar_write" (arWrite resultPath "test".data)]]])
        ⟨Json.obj [], [], fun _ => true⟩).2.delivered = ["test"] :=
  ⟨rfl, chain_applies_every_block sampleRegistry _ _ rfl, rfl⟩

/-- C7: building the active-response write operator from the invocation
`+ar_write/` with an empty argument fails at build time for every destination
field, and so does compiling a normalize stage whose map holds it: there is no
expression, hence no evaluator. -/
theorem ar_write_rejects_empty_argument (target : String) :
    (∃ what, opBuilderARWrite (StdAny.json (Json.obj [(target, Json.str "+ar_write/")])) =
        Except.error what) ∧
      ∀ registry helpers : Registry,
        lookupBuilder "stage.map" registry.entries = some (getStageMapBuilder helpers) →
        lookupBuilder "helper.ar_write" helpers.entries = some opBuilderARWrite →
        ∃ what, getStageNormalizeBuilder registry
            (StdAny.json (Json.arr [Json.obj [("map",
              Json.obj [(target, Json.str "+ar_write/")])]])) = Except.error what := by
  constructor
  · exact ⟨_, rfl⟩
  · intro registry helpers hmap har
    have h1 : registry.getBuilder ("stage." ++ "map") = Except.ok (getStageMapBuilder helpers) :=
      (getBuilder_ok_iff registry _ _).2 hmap
    have h2 : helpers.getBuilder ("helper." ++ String.mk "ar_write".data) =
        Except.ok opBuilderARWrite :=
      (getBuilder_ok_iff helpers _ _).2 har
    have h3 : parseHelper "+ar_write/".data = some ("ar_write".data, []) := rfl
    refine ⟨stageBlockFailed "map" "ar_write: the operator requires a non-empty argument", ?_⟩
    simp only [normalize_arr, transform, buildBlock, Json.getObject, buildKey,
      invokeFactory, h1, getStageMapBuilder, anyCastJson, buildMapEntry, h3, h2,
      opBuilderARWrite]

theorem ar_write_rejects_empty_argument_witness :
    (∃ what, opBuilderARWrite
        (StdAny.json (Json.obj [("ar_write.result", Json.str "+ar_write/")])) =
        Except.error what) ∧
      ∃ what, getStageNormalizeBuilder stageRegistry
          (StdAny.json (Json.arr [Json.obj [("map",
            Json.obj [("ar_write.result", Json.str "+ar_write/")])]])) = Except.error what :=
  ⟨(ar_write_rejects_empty_argument "ar_write.result").1,
    (ar_write_rejects_empty_argument "ar_write.result").2 stageRegistry helperRegistry rfl rfl⟩

theorem data_ne_nil_of_ne_empty (s : String) (h : s ≠ "") : s.data ≠ [] := by
  intro hd
  apply h
  cases s
  simp_all

theorem build_arWriteDefinition_ok (registry helpers : Registry) (s : String)
    (hmap : lookupBuilder "stage.map" registry.entries = some (getStageMapBuilder helpers))
    (har : lookupBuilder "helper.ar_write" helpers.entries = some opBuilderARWrite)
    (hne : s ≠ "") :
    getStageNormalizeBuilder registry (StdAny.json (arWriteDefinition s)) =
      Except.ok (Expression.chain "stage.normalize" [Expression.and "subblock"
        [Expression.chain "stage.map"
          [Expression.term "helper.ar_write" (arWrite resultPath s.data)]]]) := by
  rw [build_arWriteDefinition registry helpers s hmap har]
  have := data_ne_nil_of_ne_empty s hne
  cases hd : s.data with
  | nil => exact absurd hd this
  | cons c cs => rfl

theorem emit_arWriteStage (name : String) (fn : World → Bool × World) (w : World) :
    emit (Expression.chain "stage.normalize" [Expression.and "subblock"
        [Expression.chain "stage.map" [Expression.term name fn]]]) w =
      ([(fn w).2.event], (fn w).2) := rfl

theorem stream_arWriteStage (name : String) (fn : World → Bool × World)
    (accepts : String → Bool) (event : Json) (rest : List Json) (delivered : List String) :
    stream (Expression.chain "stage.normalize" [Expression.and "subblock"
        [Expression.chain "stage.map" [Expression.term name fn]]]) accepts (event :: rest)
        delivered =
      ((fn ⟨event, delivered, accepts⟩).2.event ::
          (stream (Expression.chain "stage.normalize" [Expression.and "subblock"
            [Expression.chain "stage.map" [Expression.term name fn]]]) accepts rest
            (fn ⟨event, delivered, accepts⟩).2.delivered).1,
        (stream (Expression.chain "stage.normalize" [Expression.and "subblock"
            [Expression.chain "stage.map" [Expression.term name fn]]]) accepts rest
            (fn ⟨event, delivered, accepts⟩).2.delivered).2) := rfl

theorem stream_literal (name : String) (target : List String) (s : String)
    (accepts : String → Bool) (hlit : isReference s.data = false) (hacc : accepts s = true)
    (inputs : List Json) (delivered : List String) :
    stream (Expression.chain "stage.normalize" [Expression.and "subblock"
        [Expression.chain "stage.map" [Expression.term name (arWrite target s.data)]]])
        accepts inputs delivered =
      (inputs.map (fun event => event.setPath target (Json.bool true)),
        delivered ++ List.replicate inputs.length s) := by
  induction inputs generalizing delivered with
  | nil => simp [stream]
  | cons event rest ih =>
    rw [stream_arWriteStage, arWrite_literal target s.data _ hlit hacc]
    simp only [ih]
    simp [List.replicate_succ]

/-- C8: for a non-empty literal argument `s` and a channel that takes `s`, the
normalize stage compiled from `"ar_write.result": "+ar_write/<s>"` emits one
output event per input event, sends exactly `s` for each, and sets
`/ar_write/result` to true. -/
theorem literal_argument_is_sent_verbatim (registry helpers : Registry) (s : String)
    (hmap : lookupBuilder "stage.map" registry.entries = some (getStageMapBuilder helpers))
    (har : lookupBuilder "helper.ar_write" helpers.entries = some opBuilderARWrite)
    (hne : s ≠ "") (hlit : isReference s.data = false) :
    ∃ stage, getStageNormalizeBuilder registry (StdAny.json (arWriteDefinition s)) =
        Except.ok stage ∧
      ∀ accepts : String → Bool, accepts s = true →
        (∀ (event : Json) (delivered : List String),
          ∃ output, emit stage ⟨event, delivered, accepts⟩ =
              ([output], ⟨output, delivered ++ [s], accepts⟩) ∧
            output.getPath resultPath = some (Json.bool true)) ∧
        ∀ (inputs : List Json) (delivered : List String),
          (stream stage accepts inputs delivered).1.length = inputs.length ∧
          (∀ output ∈ (stream stage accepts inputs delivered).1,
            output.getPath resultPath = some (Json.bool true)) ∧
          (stream stage accepts inputs delivered).2 =
            delivered ++ List.replicate inputs.length s := by
  refine ⟨_, build_arWriteDefinition_ok registry helpers s hmap har hne, ?_⟩
  intro accepts hacc
  constructor
  · intro event delivered
    refine ⟨event.setPath resultPath (Json.bool true), ?_, getPath_setPath _ _ _⟩
    rw [emit_arWriteStage, arWrite_literal resultPath s.data _ hlit hacc]
  · intro inputs delivered
    rw [stream_literal "helper.ar_write" resultPath s accepts hlit hacc]
    refine ⟨by simp, ?_, rfl⟩
    intro output hout
    simp only [List.mem_map] at hout
    obtain ⟨event, _, rfl⟩ := hout
    exact getPath_setPath _ _ _

theorem literal_argument_is_sent_verbatim_witness :
    ∃ stage, getStageNormalizeBuilder stageRegistry (StdAny.json (arWriteDefinition "test\n")) =
        Except.ok stage ∧
      ((stream stage (fun _ => true)
          [Json.obj [("DummyField", Json.str "DummyValue")]] []).1.length =
          [Json.obj [("DummyField", Json.str "DummyValue")]].length ∧
        (∀ output ∈ (stream stage (fun _ => true)
            [Json.obj [("DummyField", Json.str "DummyValue")]] []).1,
          output.getPath resultPath = some (Json.bool true)) ∧
        (stream stage (fun _ => true)
          [Json.obj [("DummyField", Json.str "DummyValue")]] []).2 =
          [] ++ List.replicate [Json.obj [("DummyField", Json.str "DummyValue")]].length
            "test\n") ∧
      stream stage (fun _ => true) [Json.obj [("DummyField", Json.str "DummyValue")]] [] =
        ([Json.obj [("DummyField", Json.str "DummyValue"),
            ("ar_write", Json.obj [("result", Json.bool true)])]], ["test\n"]) := by
  obtain ⟨stage, hstage, hruns⟩ :=
    literal_argument_is_sent_verbatim stageRegistry helperRegistry "test\n" rfl rfl
      (by decide) rfl
  refine ⟨stage, hstage, (hruns (fun _ => true) rfl).2 _ _, ?_⟩
  have h : getStageNormalizeBuilder stageRegistry (StdAny.json (arWriteDefinition "test\n")) =
      Except.ok (Expression.chain "stage.normalize" [Expression.and "subblock"
        [Expression.chain "stage.map"
          [Expression.term "helper.ar_write" (arWrite resultPath "test\n".data)]]]) := rfl
  rw [h] at hstage
  cases hstage
  rfl

theorem resolvePayload_fails (name : List Char) (event : Json)
    (h : ReferenceFails name event) : resolvePayload ('$' :: name) event = none := by
  cases name with
  | nil => rfl
  | cons c cs =>
    rcases h with h | h | ⟨v, hv, hns⟩
    · cases h
    · simp [resolvePayload, h]
    · simp only [resolvePayload, hv]
      cases v <;> first | rfl | exact absurd rfl (hns _)

theorem resolvePayload_resolves (c : Char) (cs : List Char) (event : Json) (s : String)
    (hfield : event.getPath (fieldPath (c :: cs)) = some (Json.str s)) (hne : s ≠ "") :
    resolvePayload ('$' :: c :: cs) event = some s := by
  have _hdata := data_ne_nil_of_ne_empty s hne
  simp [resolvePayload, hfield]

theorem arWrite_fails (target : List String) (name : List Char) (w : World)
    (h : ReferenceFails name w.event) :
    arWrite target ('$' :: name) w =
      (false, { w with event := w.event.setPath target (Json.bool false) }) := by
  simp [arWrite, resolvePayload_fails name w.event h]

theorem arWrite_event (target : List String) (argument : List Char) (w : World) :
    (arWrite target argument w).2.accepts = w.accepts ∧
      (arWrite target argument w).2.event =
        w.event.setPath target (Json.bool (arWrite target argument w).1) := by
  unfold arWrite
  cases resolvePayload argument w.event with
  | none => exact ⟨rfl, rfl⟩
  | some payload =>
    by_cases hacc : w.accepts payload = true
    · simp [hacc]
    · simp [hacc]

theorem build_reference (registry helpers : Registry) (name : String)
    (hmap : lookupBuilder "stage.map" registry.entries = some (getStageMapBuilder helpers))
    (har : lookupBuilder "helper.ar_write" helpers.entries = some opBuilderARWrite) :
    getStageNormalizeBuilder registry (StdAny.json (arWriteDefinition ("$" ++ name))) =
      Except.ok (Expression.chain "stage.normalize" [Expression.and "subblock"
        [Expression.chain "stage.map"
          [Expression.term "helper.ar_write" (arWrite resultPath ('$' :: name.data))]]]) :=
  (build_arWriteDefinition registry helpers ("$" ++ name) hmap har).trans rfl

theorem stream_reference_outputs (name : String) (target : List String) (ref : List Char)
    (accepts : String → Bool) (inputs : List Json) (delivered : List String) :
    List.Forall₂
      (fun input output => ∃ b, output = input.setPath target (Json.bool b) ∧
        (ReferenceFails ref input → b = false))
      inputs
      (stream (Expression.chain "stage.normalize" [Expression.and "subblock"
        [Expression.chain "stage.map" [Expression.term name (arWrite target ('$' :: ref))]]])
        accepts inputs delivered).1 := by
  induction inputs generalizing delivered with
  | nil => exact List.Forall₂.nil
  | cons event rest ih =>
    rw [stream_arWriteStage]
    refine List.Forall₂.cons ?_ (ih _)
    refine ⟨_, (arWrite_event target ('$' :: ref) ⟨event, delivered, accepts⟩).2, ?_⟩
    intro hfail
    rw [arWrite_fails target ref ⟨event, delivered, accepts⟩ hfail]

theorem stream_reference_fails (name : String) (target : List String) (ref : List Char)
    (accepts : String → Bool) (inputs : List Json) (delivered : List String)
    (hall : ∀ event ∈ inputs, ReferenceFails ref event) :
    stream (Expression.chain "stage.normalize" [Expression.and "subblock"
        [Expression.chain "stage.map" [Expression.term name (arWrite target ('$' :: ref))]]])
        accepts inputs delivered =
      (inputs.map (fun event => event.setPath target (Json.bool false)), delivered) := by
  induction inputs generalizing delivered with
  | nil => rfl
  | cons event rest ih =>
    rw [stream_arWriteStage,
      arWrite_fails target ref ⟨event, delivered, accepts⟩
        (hall event (List.mem_cons_self event rest))]
    simp only [ih _ (fun e he => hall e (List.mem_cons_of_mem event he))]
    rfl

/-- C9: for a normalize stage compiled with the reference argument `$<name>`,
an event on which the reference fails (empty name, absent field, field that is
not a string) gets `/ar_write/result` = false and causes no send; every input
event gives exactly one output event, in the same order. -/
theorem failed_reference_records_false (registry helpers : Registry) (name : String)
    (hmap : lookupBuilder "stage.map" registry.entries = some (getStageMapBuilder helpers))
    (har : lookupBuilder "helper.ar_write" helpers.entries = some opBuilderARWrite) :
    ∃ stage, getStageNormalizeBuilder registry
        (StdAny.json (arWriteDefinition ("$" ++ name))) = Except.ok stage ∧
      (∀ (accepts : String → Bool) (event : Json) (delivered : List String),
        ReferenceFails name.data event →
        ∃ output, emit stage ⟨event, delivered, accepts⟩ =
            ([output], ⟨output, delivered, accepts⟩) ∧
          output.getPath resultPath = some (Json.bool false)) ∧
      (∀ (accepts : String → Bool) (inputs : List Json) (delivered : List String),
        List.Forall₂
          (fun input output => ∃ b, output = input.setPath resultPath (Json.bool b) ∧
            (ReferenceFails name.data input → b = false))
          inputs (stream stage accepts inputs delivered).1) ∧
      ∀ (accepts : String → Bool) (inputs : List Json) (delivered : List String),
        (∀ event ∈ inputs, ReferenceFails name.data event) →
        stream stage accepts inputs delivered =
          (inputs.map (fun event => event.setPath resultPath (Json.bool false)), delivered) := by
  refine ⟨_, build_reference registry helpers name hmap har, ?_, ?_, ?_⟩
  · intro accepts event delivered hfail
    refine ⟨event.setPath resultPath (Json.bool false), ?_, getPath_setPath _ _ _⟩
    rw [emit_arWriteStage, arWrite_fails resultPath name.data _ hfail]
  · intro accepts inputs delivered
    exact stream_reference_outputs _ _ _ _ _ _
  · intro accepts inputs delivered hall
    exact stream_reference_fails _ _ _ _ _ _ hall

theorem failed_reference_records_false_witness :
    ∃ stage, getStageNormalizeBuilder stageRegistry
        (StdAny.json (arWriteDefinition "$query")) = Except.ok stage ∧
      stream stage (fun _ => true)
          [Json.obj [("query", Json.null)],
           Json.obj [("query", Json.int 404)],
           Json.obj [("query", Json.arr [Json.int 1, Json.str "2"])],
           Json.obj [("query", Json.obj [("a", Json.str "b")])],
           Json.obj [("query", Json.bool true)]] [] =
        ([Json.obj [("query", Json.null), ("ar_write", Json.obj [("result", Json.bool false)])],
          Json.obj [("query", Json.int 404), ("ar_write", Json.obj [("result", Json.bool false)])],
          Json.obj [("query", Json.arr [Json.int 1, Json.str "2"]),
            ("ar_write", Json.obj [("result", Json.bool false)])],
          Json.obj [("query", Json.obj [("a", Json.str "b")]),
            ("ar_write", Json.obj [("result", Json.bool false)])],
          Json.obj [("query", Json.bool true),
            ("ar_write", Json.obj [("result", Json.bool false)])]], []) := by
  obtain ⟨stage, hstage, _, _, hall⟩ :=
    failed_reference_records_false stageRegistry helperRegistry "query" rfl rfl
  refine ⟨stage, hstage, ?_⟩
  rw [hall]
  · rfl
  · intro event hevent
    simp only [List.mem_cons, List.mem_singleton, List.not_mem_nil, or_false] at hevent
    rcases hevent with rfl | rfl | rfl | rfl | rfl <;>
      exact Or.inr (Or.inr ⟨_, rfl, fun s hs => by cases hs⟩)

theorem arWrite_variable_eq_literal (target : List String) (s : String) (w : World)
    (hfield : w.event.getPath ["variable"] = some (Json.str s)) (hne : s ≠ "")
    (hlit : isReference s.data = false) :
    arWrite target "$variable".data w = arWrite target s.data w := by
  have h1 : resolvePayload "$variable".data w.event = some s :=
    resolvePayload_resolves 'v' "ariable".data w.event s hfield hne
  have h2 : resolvePayload s.data w.event = some s :=
    resolvePayload_literal s.data w.event hlit
  simp only [arWrite, h1, h2]

theorem arWrite_variable_sends (target : List String) (s : String) (w : World)
    (hfield : w.event.getPath ["variable"] = some (Json.str s)) (hne : s ≠ "")
    (hacc : w.accepts s = true) :
    arWrite target "$variable".data w =
      (true, { w with event := w.event.setPath target (Json.bool true),
                      delivered := w.delivered ++ [s] }) := by
  have h1 : resolvePayload "$variable".data w.event = some s :=
    resolvePayload_resolves 'v' "ariable".data w.event s hfield hne
  simp [arWrite, h1, hacc]

theorem build_setThenWrite (registry helpers : Registry) (s : String)
    (hmap : lookupBuilder "stage.map" registry.entries = some (getStageMapBuilder helpers))
    (har : lookupBuilder "helper.ar_write" helpers.entries = some opBuilderARWrite)
    (hval : lookupBuilder "map.value" helpers.entries = some opBuilderMapValue)
    (hplain : parseHelper s.data = none) :
    getStageNormalizeBuilder registry (StdAny.json (setThenWriteDefinition s)) =
      Except.ok (Expression.chain "stage.normalize" [Expression.and "subblock"
        [Expression.chain "stage.map"
          [Expression.term "map.value"
            (fun w => (true, { w with event := w.event.setPath ["variable"] (Json.str s) })),
           Expression.term "helper.ar_write" (arWrite resultPath "$variable".data)]]]) := by
  have h1 : registry.getBuilder ("stage." ++ "map") = Except.ok (getStageMapBuilder helpers) :=
    (getBuilder_ok_iff registry _ _).2 hmap
  have h2 : helpers.getBuilder ("helper." ++ String.mk "ar_write".data) =
      Except.ok opBuilderARWrite :=
    (getBuilder_ok_iff helpers _ _).2 har
  have h3 : helpers.getBuilder "map.value" = Except.ok opBuilderMapValue :=
    (getBuilder_ok_iff helpers _ _).2 hval
  have h4 : parseHelper "+ar_write/$variable".data = some ("ar_write".data, "$variable".data) :=
    rfl
  simp only [normalize_arr, setThenWriteDefinition, transform, buildBlock, Json.getObject,
    buildKey, invokeFactory, h1, getStageMapBuilder, anyCastJson, buildMapEntry, hplain, h4, h2,
    h3, opBuilderARWrite, opBuilderMapValue]
  rfl

/-- C10: a normalize stage whose ar_write argument is the reference
`$variable`, evaluated on an event whose field `variable` holds the non-empty
string `s`, sends `s` and sets `/ar_write/result` to true; it behaves as the
stage with the literal argument `s` does, also when `variable` was set to `s`
by an earlier entry of the same map. -/
theorem reference_behaves_as_literal (registry helpers : Registry) (s : String)
    (hmap : lookupBuilder "stage.map" registry.entries = some (getStageMapBuilder helpers))
    (har : lookupBuilder "helper.ar_write" helpers.entries = some opBuilderARWrite)
    (hval : lookupBuilder "map.value" helpers.entries = some opBuilderMapValue)
    (hne : s ≠ "") :
    ∃ refStage, getStageNormalizeBuilder registry
        (StdAny.json (arWriteDefinition "$variable")) = Except.ok refStage ∧
      (∀ w : World, w.event.getPath ["variable"] = some (Json.str s) → w.accepts s = true →
        ∃ output, emit refStage w = ([output], ⟨output, w.delivered ++ [s], w.accepts⟩) ∧
          output.getPath resultPath = some (Json.bool true)) ∧
      (isReference s.data = false →
        ∃ litStage, getStageNormalizeBuilder registry (StdAny.json (arWriteDefinition s)) =
            Except.ok litStage ∧
          ∀ w : World, w.event.getPath ["variable"] = some (Json.str s) →
            emit refStage w = emit litStage w) ∧
      (parseHelper s.data = none →
        ∃ setStage, getStageNormalizeBuilder registry
            (StdAny.json (setThenWriteDefinition s)) = Except.ok setStage ∧
          (∀ w : World, emit setStage w =
            emit refStage { w with event := w.event.setPath ["variable"] (Json.str s) }) ∧
          ∀ w : World, w.accepts s = true →
            ∃ output, emit setStage w = ([output], ⟨output, w.delivered ++ [s], w.accepts⟩) ∧
              output.getPath resultPath = some (Json.bool true)) := by
  refine ⟨_, build_reference registry helpers "variable" hmap har, ?_, ?_, ?_⟩
  · intro w hfield hacc
    refine ⟨w.event.setPath resultPath (Json.bool true), ?_, getPath_setPath _ _ _⟩
    rw [emit_arWriteStage]
    exact congrArg (fun r => ([r.2.event], r.2))
      (arWrite_variable_sends resultPath s w hfield hne hacc)
  · intro hlit
    refine ⟨_, build_arWriteDefinition_ok registry helpers s hmap har hne, ?_⟩
    intro w hfield
    rw [emit_arWriteStage, emit_arWriteStage]
    exact congrArg (fun r => ([r.2.event], r.2))
      (arWrite_variable_eq_literal resultPath s w hfield hne hlit)
  · intro hplain
    refine ⟨_, build_setThenWrite registry helpers s hmap har hval hplain, ?_, ?_⟩
    · intro w
      rfl
    · intro w hacc
      refine ⟨(w.event.setPath ["variable"] (Json.str s)).setPath resultPath (Json.bool true),
        ?_, getPath_setPath _ _ _⟩
      exact congrArg (fun r => ([r.2.event], r.2))
        (arWrite_variable_sends resultPath s
          { w with event := w.event.setPath ["variable"] (Json.str s) }
          (getPath_setPath _ _ _) hne hacc)

theorem reference_behaves_as_literal_witness :
    ∃ setStage, getStageNormalizeBuilder stageRegistry
        (StdAny.json (setThenWriteDefinition "test\n")) = Except.ok setStage ∧
      ∃ output, emit setStage
          ⟨Json.obj [("DummyField", Json.str "DummyValue")], [], fun _ => true⟩ =
          ([output], ⟨output, [] ++ ["test\n"], fun _ => true⟩) ∧
        output.getPath resultPath = some (Json.bool true) := by
  obtain ⟨_, _, _, _, hset⟩ :=
    reference_behaves_as_literal stageRegistry helperRegistry "test\n" rfl rfl rfl (by decide)
  obtain ⟨setStage, hbuild, _, hsend⟩ := hset rfl
  exact ⟨setStage, hbuild,
    hsend ⟨Json.obj [("DummyField", Json.str "DummyValue")], [], fun _ => true⟩ rfl⟩

/-- C12 as stated fails: with the registrations of the test fixture alone the
build of `[{"map": {"ar_write.result": "+ar_write/test"}}]` throws, because
the name `stage.map` is not registered. -/
theorem fixture_registry_build_fails :
    getStageNormalizeBuilder
        (fixtureRegistry neverHolds neverHolds neverHolds neverHolds neverHolds neverHolds)
        (StdAny.json (arWriteDefinition "test")) =
      Except.error ("Stage block \"map\" building failed: " ++ unknownOperator "stage.map") :=
  rfl

/-- C12, amended: with a registry holding exactly the names of the test
fixture the build of `[{"map": {"ar_write.result": "+ar_write/test"}}]` fails
with the stage-block error for the key `map`, whose cause is the registry's
error for the name `stage.map`; with `stage.map` registered as well, as the
map stage over the fixture's builders, the build does not fail. -/
theorem fixture_registry_needs_stage_map
    (stageBuilderCheck opBuilderCondition middleBuilderCondition opBuilderHelperExists
      combinatorBuilderChain combinatorBuilderBroadcast : Builder) :
    getStageNormalizeBuilder
        (fixtureRegistry stageBuilderCheck opBuilderCondition middleBuilderCondition
          opBuilderHelperExists combinatorBuilderChain combinatorBuilderBroadcast)
        (StdAny.json (arWriteDefinition "test")) =
      Except.error ("Stage block \"map\" building failed: " ++ unknownOperator "stage.map") ∧
    getStageNormalizeBuilder
        ((fixtureRegistry stageBuilderCheck opBuilderCondition middleBuilderCondition
          opBuilderHelperExists combinatorBuilderChain combinatorBuilderBroadcast).registerBuilder
          "stage.map"
          (getStageMapBuilder
            (fixtureRegistry stageBuilderCheck opBuilderCondition middleBuilderCondition
              opBuilderHelperExists combinatorBuilderChain combinatorBuilderBroadcast)))
        (StdAny.json (arWriteDefinition "test")) =
      Except.ok (Expression.chain "stage.normalize" [Expression.and "subblock"
        [Expression.chain "stage.map"
          [Expression.term "helper.ar_write" (arWrite resultPath "test".data)]]]) :=
  ⟨rfl, rfl⟩

end Evaluation

section Request

theorem create_ok (VERSION_SUPPORTED : Int) (command originName : String)
    (members : List (String × Json)) (hcommand : command ≠ "") :
    WazuhRequest.create VERSION_SUPPORTED command originName (Json.obj members) =
      Except.ok ⟨Json.obj [("version", Json.int VERSION_SUPPORTED),
        ("command", Json.str command), ("parameters", Json.obj members),
        ("origin", Json.obj [("module", Json.str "wazuh-engine"),
          ("name", Json.str originName)])]⟩ := by
  unfold WazuhRequest.create
  rw [if_neg hcommand]
  rfl

theorem isStringAt_iff (j : Json) (path : List String) :
    j.isStringAt path = true ↔ ∃ s, j.getPath path = some (Json.str s) := by
  unfold Json.isStringAt
  cases h : j.getPath path with
  | none => simp
  | some v => cases v <;> simp

theorem isObjectAt_iff (j : Json) (path : List String) :
    j.isObjectAt path = true ↔ ∃ members, j.getPath path = some (Json.obj members) := by
  unfold Json.isObjectAt
  cases h : j.getPath path with
  | none => simp
  | some v => cases v <;> simp

theorem getIntAt_eq_some_iff (j : Json) (path : List String) (n : Int) :
    j.getIntAt path = some n ↔
      j.getPath path = some (Json.int n) ∧ -2147483648 ≤ n ∧ n ≤ 2147483647 := by
  unfold Json.getIntAt
  cases h : j.getPath path with
  | none => simp
  | some v =>
    cases v <;> simp
    case int m =>
      constructor
      · rintro ⟨h1, rfl⟩
        exact ⟨rfl, h1⟩
      · rintro ⟨rfl, h1⟩
        exact ⟨h1, rfl⟩

theorem isIntAt_iff (j : Json) (path : List String) :
    j.isIntAt path = true ↔ ∃ n, j.getIntAt path = some n := by
  unfold Json.isIntAt Json.getIntAt
  cases h : j.getPath path with
  | none => simp
  | some v => cases v <;> simp

theorem validate_eq_none_iff (VERSION_SUPPORTED : Int) (r : WazuhRequest) :
    r.validate VERSION_SUPPORTED = none ↔
      r.m_jrequest.isObject = true ∧
        r.m_jrequest.getIntAt ["version"] = some VERSION_SUPPORTED ∧
        r.m_jrequest.isStringAt ["command"] = true ∧
        r.m_jrequest.isObjectAt ["parameters"] = true ∧
        r.m_jrequest.isObjectAt ["origin"] = true ∧
        r.m_jrequest.isStringAt ["origin", "name"] = true ∧
        r.m_jrequest.isStringAt ["origin", "module"] = true := by
  unfold WazuhRequest.validate
  cases hgi : r.m_jrequest.getIntAt ["version"] with
  | none =>
    simp only []
    split_ifs <;> simp_all
  | some version =>
    have hint : r.m_jrequest.isIntAt ["version"] = true :=
      (isIntAt_iff _ _).2 ⟨version, hgi⟩
    have hex : r.m_jrequest.existsAt ["version"] = true := by
      obtain ⟨h1, _⟩ := (getIntAt_eq_some_iff _ _ _).1 hgi
      simp [Json.existsAt, h1]
    simp only []
    split_ifs <;> simp_all

theorem versionNotSupported_ne_empty (version supported : Int) :
    versionNotSupported version supported ≠ "" := by
  intro h
  have hlen := congrArg String.length h
  have h21 : ("The request version (" : String).length = 21 := rfl
  simp only [versionNotSupported, String.length_append, h21] at hlen
  have h0 : ("" : String).length = 0 := rfl
  rw [h0] at hlen
  omega

theorem validate_message_ne_empty (VERSION_SUPPORTED : Int) (r : WazuhRequest)
    (message : String) (h : r.validate VERSION_SUPPORTED = some message) : message ≠ "" := by
  unfold WazuhRequest.validate at h
  cases hgi : r.m_jrequest.getIntAt ["version"] with
  | none =>
    rw [hgi] at h
    simp only [] at h
    split_ifs at h <;> (cases h; decide)
  | some version =>
    rw [hgi] at h
    simp only [] at h
    split_ifs at h
    all_goals first
      | (cases h; decide)
      | (cases h; exact versionNotSupported_ne_empty _ _)

theorem wellFormedRequest_iff (version : Int) (j : Json)
    (hversion : -2147483648 ≤ version ∧ version ≤ 2147483647) :
    WellFormedRequest version j ↔
      j.isObject = true ∧
        j.getIntAt ["version"] = some version ∧
        j.isStringAt ["command"] = true ∧
        j.isObjectAt ["parameters"] = true ∧
        j.isObjectAt ["origin"] = true ∧
        j.isStringAt ["origin", "name"] = true ∧
        j.isStringAt ["origin", "module"] = true := by
  unfold WellFormedRequest
  rw [getIntAt_eq_some_iff, isStringAt_iff, isObjectAt_iff, isObjectAt_iff, isStringAt_iff,
    isStringAt_iff]
  constructor
  · rintro ⟨h1, h2, h3⟩
    exact ⟨h1, ⟨h2, hversion⟩, h3⟩
  · rintro ⟨h1, ⟨h2, _⟩, h3⟩
    exact ⟨h1, h2, h3⟩

/-- C13: `validate` returns no error exactly for a request that is a JSON
object whose `/version` is the integer `VERSION_SUPPORTED`, whose `/command`
is a string, whose `/parameters` and `/origin` are objects and whose
`/origin/name` and `/origin/module` are strings; for every other request it
returns a non-empty message; a request with the empty command is accepted. -/
theorem validate_accepts_exactly_well_formed (VERSION_SUPPORTED : Int)
    (hversion : -2147483648 ≤ VERSION_SUPPORTED ∧ VERSION_SUPPORTED ≤ 2147483647)
    (r : WazuhRequest) :
    (r.validate VERSION_SUPPORTED = none ↔ WellFormedRequest VERSION_SUPPORTED r.m_jrequest) ∧
      (¬ WellFormedRequest VERSION_SUPPORTED r.m_jrequest →
        ∃ message, r.validate VERSION_SUPPORTED = some message ∧ message ≠ "") ∧
      ∀ (members : List (String × Json)) (name module : String),
        WazuhRequest.validate VERSION_SUPPORTED
          ⟨Json.obj [("version", Json.int VERSION_SUPPORTED), ("command", Json.str ""),
            ("parameters", Json.obj members),
            ("origin", Json.obj [("name", Json.str name), ("module", Json.str module)])]⟩ =
          none := by
  have hiff : r.validate VERSION_SUPPORTED = none ↔
      WellFormedRequest VERSION_SUPPORTED r.m_jrequest := by
    rw [validate_eq_none_iff, wellFormedRequest_iff _ _ hversion]
  refine ⟨hiff, ?_, ?_⟩
  · intro hnot
    cases hval : r.validate VERSION_SUPPORTED with
    | none => exact absurd (hiff.1 hval) hnot
    | some message => exact ⟨message, rfl, validate_message_ne_empty _ _ _ hval⟩
  · intro members name module
    rw [validate_eq_none_iff, ← wellFormedRequest_iff _ _ hversion]
    exact ⟨rfl, rfl, ⟨_, rfl⟩, ⟨_, rfl⟩, ⟨_, rfl⟩, ⟨_, rfl⟩, ⟨_, rfl⟩⟩

theorem validate_accepts_exactly_well_formed_witness :
    (WazuhRequest.validate 1
        ⟨Json.obj [("version", Json.int 1), ("command", Json.str ""),
          ("parameters", Json.obj []),
          ("origin", Json.obj [("name", Json.str "api"), ("module", Json.str "cli")])]⟩ =
      none) ∧
    ∃ message,
      WazuhRequest.validate 1 ⟨Json.obj [("version", Json.int 2), ("command", Json.str "run")]⟩ =
        some message ∧ message ≠ "" :=
  ⟨(validate_accepts_exactly_well_formed 1 (by decide)
      ⟨Json.obj [("version", Json.int 1), ("command", Json.str ""),
        ("parameters", Json.obj []),
        ("origin", Json.obj [("name", Json.str "api"), ("module", Json.str "cli")])]⟩).2.2
      [] "api" "cli",
    (validate_accepts_exactly_well_formed 1 (by decide)
      ⟨Json.obj [("version", Json.int 2), ("command", Json.str "run")]⟩).2.1
      (fun h => by
        have h2 := h.2.1
        simp [Json.getPath, Json.getObject, lookupMember] at h2)⟩

theorem isObject_eq_true_iff (j : Json) : j.isObject = true ↔ ∃ members, j = Json.obj members := by
  cases j <;> simp [Json.isObject]

theorem validate_created (VERSION_SUPPORTED : Int)
    (hversion : -2147483648 ≤ VERSION_SUPPORTED ∧ VERSION_SUPPORTED ≤ 2147483647)
    (command originName : String) (members : List (String × Json)) :
    WazuhRequest.validate VERSION_SUPPORTED
        ⟨Json.obj [("version", Json.int VERSION_SUPPORTED),
          ("command", Json.str command), ("parameters", Json.obj members),
          ("origin", Json.obj [("module", Json.str "wazuh-engine"),
            ("name", Json.str originName)])]⟩ = none := by
  rw [validate_eq_none_iff, ← wellFormedRequest_iff _ _ hversion]
  exact ⟨rfl, rfl, ⟨_, rfl⟩, ⟨_, rfl⟩, ⟨_, rfl⟩, ⟨_, rfl⟩, ⟨_, rfl⟩⟩

/-- C14: for a non-empty command, any origin name and parameters that are a
JSON object, `create` returns a request, and `validate` on that request
returns no error. -/
theorem created_request_is_valid (VERSION_SUPPORTED : Int)
    (hversion : -2147483648 ≤ VERSION_SUPPORTED ∧ VERSION_SUPPORTED ≤ 2147483647)
    (command originName : String) (parameters : Json)
    (hcommand : command ≠ "") (hparameters : parameters.isObject = true) :
    ∃ r, WazuhRequest.create VERSION_SUPPORTED command originName parameters = Except.ok r ∧
      r.validate VERSION_SUPPORTED = none := by
  obtain ⟨members, rfl⟩ := (isObject_eq_true_iff parameters).1 hparameters
  exact ⟨_, create_ok VERSION_SUPPORTED command originName members hcommand,
    validate_created VERSION_SUPPORTED hversion command originName members⟩

theorem created_request_is_valid_witness :
    ∃ r, WazuhRequest.create 1 "run" "" (Json.obj [("a", Json.int 404)]) = Except.ok r ∧
      r.validate 1 = none :=
  created_request_is_valid 1 (by decide) "run" "" (Json.obj [("a", Json.int 404)])
    (by decide) rfl

theorem create_empty_command (VERSION_SUPPORTED : Int) (originName : String)
    (parameters : Json) :
    WazuhRequest.create VERSION_SUPPORTED "" originName parameters =
      Except.error "The command cannot be empty" := by
  unfold WazuhRequest.create
  rw [if_pos rfl]

theorem create_bad_parameters (VERSION_SUPPORTED : Int) (command originName : String)
    (parameters : Json) (hcommand : command ≠ "") (hparameters : parameters.isObject = false) :
    WazuhRequest.create VERSION_SUPPORTED command originName parameters =
      Except.error "The command parameters must be inside of a JSON object" := by
  unfold WazuhRequest.create
  rw [if_neg hcommand]
  simp [hparameters]

/-- C15: `create` fails exactly when the command is empty or the parameters
are not a JSON object; an empty command gives "The command cannot be empty",
also when the parameters are not an object; otherwise parameters that are not
an object give "The command parameters must be inside of a JSON object"; the
origin name never decides. -/
theorem create_fails_iff (VERSION_SUPPORTED : Int) (command originName : String)
    (parameters : Json) :
    ((∃ what, WazuhRequest.create VERSION_SUPPORTED command originName parameters =
        Except.error what) ↔ (command = "" ∨ parameters.isObject = false)) ∧
      (command = "" →
        WazuhRequest.create VERSION_SUPPORTED command originName parameters =
          Except.error "The command cannot be empty") ∧
      (command ≠ "" → parameters.isObject = false →
        WazuhRequest.create VERSION_SUPPORTED command originName parameters =
          Except.error "The command parameters must be inside of a JSON object") ∧
      ∀ otherName : String,
        ((∃ what, WazuhRequest.create VERSION_SUPPORTED command originName parameters =
            Except.error what) ↔
          ∃ what, WazuhRequest.create VERSION_SUPPORTED command otherName parameters =
            Except.error what) := by
  have hfail : ∀ name : String,
      ((∃ what, WazuhRequest.create VERSION_SUPPORTED command name parameters =
        Except.error what) ↔ (command = "" ∨ parameters.isObject = false)) := by
    intro name
    by_cases hcommand : command = ""
    · subst hcommand
      simp [create_empty_command]
    · cases hparameters : parameters.isObject with
      | false => simp [create_bad_parameters _ _ _ _ hcommand hparameters, hcommand]
      | true =>
        obtain ⟨members, rfl⟩ := (isObject_eq_true_iff parameters).1 hparameters
        simp [create_ok _ _ _ _ hcommand, hcommand]
  refine ⟨hfail originName, ?_, ?_, ?_⟩
  · intro hcommand
    subst hcommand
    exact create_empty_command _ _ _
  · intro hcommand hparameters
    exact create_bad_parameters _ _ _ _ hcommand hparameters
  · intro otherName
    rw [hfail originName, hfail otherName]

theorem create_fails_iff_witness :
    WazuhRequest.create 1 "" "api" (Json.arr []) =
        Except.error "The command cannot be empty" ∧
      WazuhRequest.create 1 "run" "api" (Json.arr []) =
        Except.error "The command parameters must be inside of a JSON object" :=
  ⟨(create_fails_iff 1 "" "api" (Json.arr [])).2.1 rfl,
    (create_fails_iff 1 "run" "api" (Json.arr [])).2.2.1 (by decide) rfl⟩

/-- C16: for a non-empty command `c`, an origin name `n` and parameters `p`
that are an object, the request built by `create` has `/version` equal to
`VERSION_SUPPORTED`, `/command` equal to `c`, `/parameters` equal to `p`,
`/origin/name` equal to `n`, `/origin/module` equal to "wazuh-engine", and the
top-level fields version, command, parameters and origin only. -/
theorem created_request_fields (VERSION_SUPPORTED : Int) (command originName : String)
    (parameters : Json) (hcommand : command ≠ "") (hparameters : parameters.isObject = true) :
    ∃ (r : WazuhRequest) (members : List (String × Json)),
      WazuhRequest.create VERSION_SUPPORTED command originName parameters = Except.ok r ∧
        r.m_jrequest.getPath ["version"] = some (Json.int VERSION_SUPPORTED) ∧
        r.m_jrequest.getPath ["command"] = some (Json.str command) ∧
        r.m_jrequest.getPath ["parameters"] = some parameters ∧
        r.m_jrequest.getPath ["origin", "name"] = some (Json.str originName) ∧
        r.m_jrequest.getPath ["origin", "module"] = some (Json.str "wazuh-engine") ∧
        r.m_jrequest = Json.obj members ∧
        members.map Prod.fst = ["version", "command", "parameters", "origin"] := by
  obtain ⟨fields, rfl⟩ := (isObject_eq_true_iff parameters).1 hparameters
  exact ⟨_, _, create_ok VERSION_SUPPORTED command originName fields hcommand,
    rfl, rfl, rfl, rfl, rfl, rfl, rfl⟩

theorem created_request_fields_witness :
    ∃ (r : WazuhRequest) (members : List (String × Json)),
      WazuhRequest.create 1 "run" "api" (Json.obj [("a", Json.int 404)]) = Except.ok r ∧
        r.m_jrequest.getPath ["version"] = some (Json.int 1) ∧
        r.m_jrequest.getPath ["command"] = some (Json.str "run") ∧
        r.m_jrequest.getPath ["parameters"] = some (Json.obj [("a", Json.int 404)]) ∧
        r.m_jrequest.getPath ["origin", "name"] = some (Json.str "api") ∧
        r.m_jrequest.getPath ["origin", "module"] = some (Json.str "wazuh-engine") ∧
        r.m_jrequest = Json.obj members ∧
        members.map Prod.fst = ["version", "command", "parameters", "origin"] :=
  created_request_fields 1 "run" "api" (Json.obj [("a", Json.int 404)]) (by decide) rfl

end Request

section Order

theorem transform_append_ok {α β : Type} (op : α → Except String β) (xs ys : List α)
    (xs1 ys1 : List β) (hxs : transform op xs = Except.ok xs1)
    (hys : transform op ys = Except.ok ys1) :
    transform op (xs ++ ys) = Except.ok (xs1 ++ ys1) := by
  rw [transform_ok_iff] at hxs hys ⊢
  exact List.rel_append hxs hys

theorem stageBlockFailed_ne_invalidItemType (key what actual : String) :
    stageBlockFailed key what ≠ invalidItemType actual := by
  intro h
  have hdata := congrArg String.data h
  have h1 : ∃ rest, (stageBlockFailed key what).data = 'S' :: rest := ⟨_, rfl⟩
  have h2 : ∃ rest, (invalidItemType actual).data = 'I' :: rest := ⟨_, rfl⟩
  obtain ⟨r1, h1⟩ := h1
  obtain ⟨r2, h2⟩ := h2
  rw [h1, h2] at hdata
  simp at hdata

theorem normalize_key_failure (registry : Registry)
    (before : List Json) (beforeExprs : List Expression)
    (pre : List (String × Json)) (preExprs : List Expression)
    (key : String) (value : Json) (post : List (String × Json)) (after : List Json)
    (c : String)
    (hbefore : transform (buildBlock registry) before = Except.ok beforeExprs)
    (hpre : transform (buildKey registry) pre = Except.ok preExprs)
    (hfail : invokeFactory registry (key, value) = Except.error c) :
    getStageNormalizeBuilder registry
        (StdAny.json (Json.arr (before ++ Json.obj (pre ++ (key, value) :: post) :: after))) =
      Except.error (stageBlockFailed key c) := by
  have hkey : buildKey registry (key, value) = Except.error (stageBlockFailed key c) :=
    buildKey_error registry (key, value) c hfail
  have hblock : buildBlock registry (Json.obj (pre ++ (key, value) :: post)) =
      Except.error (stageBlockFailed key c) := by
    simp only [buildBlock, Json.getObject]
    rw [transform_first_error (buildKey registry) pre (key, value) post preExprs _ hpre hkey]
  rw [normalize_arr,
    transform_first_error (buildBlock registry) before _ after beforeExprs _ hbefore hblock]

/-- C17: the error reported is that of the first defect in document order.
When the blocks before it and the keys before it build, a key that fails to
build gives the `Stage block "<key>" building failed` error whatever follows
it, later keys of the block and later entries included: not the
invalid-item-type error of a later entry that is not an object, and the same
error as for the definition that ends at the failing key. When the entries
before it build, an entry that is not an object gives the invalid-item-type
error whatever follows it. -/
theorem first_defect_is_reported (registry : Registry)
    (before : List Json) (beforeExprs : List Expression)
    (hbefore : transform (buildBlock registry) before = Except.ok beforeExprs) :
    (∀ (pre : List (String × Json)) (preExprs : List Expression) (key : String) (value : Json)
        (c : String) (post : List (String × Json)) (after : List Json),
        transform (buildKey registry) pre = Except.ok preExprs →
        invokeFactory registry (key, value) = Except.error c →
        getStageNormalizeBuilder registry
            (StdAny.json (Json.arr (before ++ Json.obj (pre ++ (key, value) :: post) :: after))) =
          Except.error ("Stage block \"" ++ key ++ "\" building failed: " ++ c) ∧
        (∀ item ∈ after,
          getStageNormalizeBuilder registry
            (StdAny.json (Json.arr (before ++ Json.obj (pre ++ (key, value) :: post) :: after))) ≠
          Except.error (invalidItemType item.typeName)) ∧
        getStageNormalizeBuilder registry
            (StdAny.json (Json.arr (before ++ Json.obj (pre ++ (key, value) :: post) :: after))) =
          getStageNormalizeBuilder registry
            (StdAny.json (Json.arr (before ++ [Json.obj (pre ++ [(key, value)])])))) ∧
      ∀ (item : Json) (after : List Json), item.isObject = false →
        getStageNormalizeBuilder registry (StdAny.json (Json.arr (before ++ item :: after))) =
          Except.error (invalidItemType item.typeName) := by
  constructor
  · intro pre preExprs key value c post after hpre hfail
    have h := normalize_key_failure registry before beforeExprs pre preExprs key value post after
      c hbefore hpre hfail
    refine ⟨h, ?_, ?_⟩
    · intro item _ hitem
      rw [h] at hitem
      exact stageBlockFailed_ne_invalidItemType key c item.typeName (Except.error.inj hitem)
    · rw [h, normalize_key_failure registry before beforeExprs pre preExprs key value [] [] c
        hbefore hpre hfail]
  · intro item after hitem
    rw [normalize_arr,
      transform_first_error (buildBlock registry) before item after beforeExprs _ hbefore
        (buildBlock_not_object registry item hitem)]

theorem first_defect_is_reported_witness :
    getStageNormalizeBuilder stageRegistry
        (StdAny.json (Json.arr
          ([Json.obj [("map", Json.obj [])]] ++
            Json.obj ([("map", Json.obj [])] ++ ("check", Json.arr []) :: [("parse", Json.null)])
              :: [Json.int 404]))) =
      Except.error
        ("Stage block \"" ++ "check" ++ "\" building failed: " ++
          unknownOperator "stage.check") :=
  ((first_defect_is_reported stageRegistry [Json.obj [("map", Json.obj [])]] _ rfl).1
    [("map", Json.obj [])] _ "check" (Json.arr []) (unknownOperator "stage.check")
    [("parse", Json.null)] [Json.int 404] rfl rfl).1

/-- C18: for the empty array the normalize builder returns the Chain named
"stage.normalize" with no children, whatever the registry holds; a block that
is the empty object builds, whatever the registry holds, to the And named
"subblock" with no children, and that is what it contributes to the stage. -/
theorem empty_definition_and_empty_block (registry : Registry) :
    getStageNormalizeBuilder registry (StdAny.json (Json.arr [])) =
        Except.ok (Expression.chain "stage.normalize" []) ∧
      buildBlock registry (Json.obj []) = Except.ok (Expression.and "subblock" []) ∧
      ∀ (before after : List Json) (beforeExprs afterExprs : List Expression),
        transform (buildBlock registry) before = Except.ok beforeExprs →
        transform (buildBlock registry) after = Except.ok afterExprs →
        getStageNormalizeBuilder registry
            (StdAny.json (Json.arr (before ++ Json.obj [] :: after))) =
          Except.ok (Expression.chain "stage.normalize"
            (beforeExprs ++ Expression.and "subblock" [] :: afterExprs)) := by
  refine ⟨rfl, rfl, ?_⟩
  intro before after beforeExprs afterExprs hbefore hafter
  have hrest : transform (buildBlock registry) (Json.obj [] :: after) =
      Except.ok (Expression.and "subblock" [] :: afterExprs) := by
    simp only [transform, buildBlock, Json.getObject, And.create, hafter]
  rw [normalize_arr, transform_append_ok _ _ _ _ _ hbefore hrest]

theorem empty_definition_and_empty_block_witness :
    getStageNormalizeBuilder (Registry.mk [])
        (StdAny.json (Json.arr ([Json.obj []] ++ Json.obj [] :: []))) =
      Except.ok (Expression.chain "stage.normalize"
        ([Expression.and "subblock" []] ++ Expression.and "subblock" [] :: [])) :=
  (empty_definition_and_empty_block (Registry.mk [])).2.2 [Json.obj []] [] _ _ rfl rfl

end Order

end Engine
